import Mathlib

/-!
# vodafone-station-exporter: the process entry point and the scrape handlers

A shallow embedding of `main.go`.  The program is effectful; every function
is embedded as a pure function of the flag values and of an environment that
answers the calls into the operating system and into the libraries
(`os.ReadFile`, `http.HandleFunc`, `http.ListenAndServe`).  What the program
does is recorded as a list of events in program order, together with the
way the process ends.
-/

namespace VodafoneStationExporter

/-! ## Go values -/

/-- A Go `error`: its message and, for an error made with the `%w` verb, the
error it wraps. -/
inductive GoError where
  | new (msg : String)
  | wrap (msg : String) (cause : GoError)
  deriving DecidableEq, Repr

/-- The `Error()` method. -/
def GoError.Error : GoError → String
  | .new msg => msg
  | .wrap msg _ => msg

/-- The `Unwrap()` method (what `errors.Unwrap` returns). -/
def GoError.Unwrap : GoError → Option GoError
  | .new _ => none
  | .wrap _ cause => some cause

/-- The call `fmt.Errorf(text + "%w", err)` for a format that is a literal
text followed by the single verb `%w`. -/
def Errorf (text : String) (err : GoError) : GoError :=
  .wrap (text ++ err.Error) err

/-- The function `unicode.IsSpace`: the Latin-1 spaces `\t \n \v \f \r`, the
blank, U+0085 and U+00A0, and beyond Latin-1 the code points with the Unicode
White_Space property. -/
def isSpace (c : Char) : Bool :=
  let n := c.toNat
  (9 ≤ n && n ≤ 13) || n == 32 || n == 0x85 || n == 0xA0 || n == 0x1680 ||
  (0x2000 ≤ n && n ≤ 0x200A) || n == 0x2028 || n == 0x2029 || n == 0x202F ||
  n == 0x205F || n == 0x3000

/-- The function `strings.TrimSpace` on the sequence of code points of a
string: the leading run of spaces is dropped, then the trailing run. -/
def trimSpaceChars (cs : List Char) : List Char :=
  ((cs.dropWhile isSpace).reverse.dropWhile isSpace).reverse

/-- The function `strings.TrimSpace`. -/
def TrimSpace (s : String) : String :=
  ⟨trimSpaceChars s.data⟩

/-! ## The command line -/

/-- The constant `version`. -/
def version : String := "0.0.1"

/-- The values of the eight flags after `flag.Parse()`. -/
structure Flags where
  showVersion : Bool
  showMetrics : Bool
  listenAddress : String
  metricsPath : String
  docsisMetricsPath : String
  vodafoneStationUrl : String
  vodafoneStationPassword : String
  vodafoneStationPasswordFile : String
  deriving DecidableEq, Repr

/-- The flag values when the command line is empty (the defaults of the
`flag.Bool` and `flag.String` declarations). -/
def defaultFlags : Flags where
  showVersion := false
  showMetrics := false
  listenAddress := "[::]:9420"
  metricsPath := "/metrics"
  docsisMetricsPath := "/docsis/metrics"
  vodafoneStationUrl := "https://192.168.0.1"
  vodafoneStationPassword := "How is the default password calculated? mhmm"
  vodafoneStationPasswordFile := ""

/-! ## The device client and the collectors (declared outside `main.go`) -/

/-- Modelled from the spec: the type `api.VodafoneStation` is not part of the
source at hand.  The spec describes the device endpoint as the pair of a base
URL and a password, immutable after construction; a client is identified here
with the two arguments it was constructed from. -/
structure VodafoneStation where
  URL : String
  Password : String
  deriving DecidableEq, Repr

/-- The constructor `api.NewVodafoneStation(url, password)`. -/
def NewVodafoneStation (url password : String) : VodafoneStation :=
  { URL := url, Password := password }

/-- The three fields of `prometheus.Desc` that `describeMetric` reads by
reflection. -/
structure Desc where
  fqName : String
  help : String
  variableLabels : List String
  deriving DecidableEq, Repr

/-- The struct `collector.Collector`, as far as `main.go` uses it: the field
`Station`, a pointer that is nil in the zero value. -/
structure Collector where
  Station : Option VodafoneStation
  deriving DecidableEq, Repr

/-- The struct `collector.DocsisCollector`, as far as `main.go` uses it. -/
structure DocsisCollector where
  Station : Option VodafoneStation
  deriving DecidableEq, Repr

/-- One sample: metric name, label pairs, value. -/
structure Metric where
  name : String
  labels : List (String × String)
  value : Int
  deriving DecidableEq, Repr

/-- Modelled from the spec: the error kinds of a device read. -/
inductive FetchError where
  | AuthError
  | TransportError
  | MalformedResponseError
  deriving DecidableEq, Repr

/-- Modelled from the spec: the record GeneralDeviceState of the data model;
the temperature is optional. -/
structure GeneralDeviceState where
  uptimeSeconds : Nat
  wanLinkUp : Bool
  connectedClientCount : Nat
  deviceTemperatureCelsius : Option Int
  firmwareVersion : String
  rebootCount : Nat
  deriving DecidableEq, Repr

/-- Modelled from the spec: the two channel directions. -/
inductive Direction where
  | upstream
  | downstream
  deriving DecidableEq, Repr

/-- Modelled from the spec: one entry of DocsisChannelState; the signal to
noise ratio exists for downstream channels only. -/
structure DocsisChannel where
  channelId : Nat
  direction : Direction
  frequencyHz : Int
  powerDbmV : Int
  signalToNoiseDb : Option Int
  locked : Bool
  correctableErrorCount : Nat
  uncorrectableErrorCount : Nat
  deriving DecidableEq, Repr

/-- What the device answers during one scrape: the outcome of the read of the
general state and of the read of the channel state. -/
structure Device where
  general : FetchError ⊕ GeneralDeviceState
  docsis : FetchError ⊕ List DocsisChannel
  deriving DecidableEq, Repr

/-- The methods of package `collector` that `main.go` and the registry call.
The package is not part of the source at hand, so its methods are
parameters of the embedding. -/
structure CollectorPkg where
  Describe : Collector → List (Option Desc)
  Collect : Collector → Device → List Metric
  DocsisDescribe : DocsisCollector → List (Option Desc)
  DocsisCollect : DocsisCollector → Device → List Metric

/-! ## Registry and exposition handler (prometheus client library) -/

/-- Either kind of collector, as a `prometheus.Collector` interface value. -/
inductive AnyCollector where
  | general (c : Collector)
  | docsis (c : DocsisCollector)
  deriving DecidableEq, Repr

/-- A `prometheus.Registry`: the identity of the allocation and the
collectors registered so far. -/
structure Registry where
  id : Nat
  collectors : List AnyCollector
  deriving DecidableEq, Repr

/-- The allocations made so far: the number of registries created. -/
structure Heap where
  registries : Nat
  deriving DecidableEq, Repr

/-- The call `prometheus.NewRegistry()`: a new, empty registry. -/
def NewRegistry (h : Heap) : Registry × Heap :=
  ({ id := h.registries, collectors := [] }, { registries := h.registries + 1 })

/-- The non-nil descriptors of a list, in order. -/
def nonNil (ds : List (Option Desc)) : List Desc :=
  ds.filterMap (fun d => d)

/-- The descriptors a collector sends on `Describe`. -/
def AnyCollector.descs (pkg : CollectorPkg) : AnyCollector → List (Option Desc)
  | .general c => pkg.Describe c
  | .docsis c => pkg.DocsisDescribe c

/-- The metrics a collector sends on `Collect`. -/
def AnyCollector.collect (pkg : CollectorPkg) (dev : Device) : AnyCollector → List Metric
  | .general c => pkg.Collect c dev
  | .docsis c => pkg.DocsisCollect c dev

/-- Two descriptors that the registry refuses to hold together: the same
name with a different help text or different label names. -/
def Desc.clashes (d e : Desc) : Bool :=
  d.fqName == e.fqName && !(d.help == e.help && d.variableLabels == e.variableLabels)

/-- The method `Registry.Register`: a nil descriptor, a descriptor that is
registered already, and a descriptor inconsistent with another one of the
same name are errors; otherwise the collector is added. -/
def Registry.Register (pkg : CollectorPkg) (r : Registry) (c : AnyCollector) :
    GoError ⊕ Registry :=
  let ds := c.descs pkg
  let old := (r.collectors.map (fun o => nonNil (o.descs pkg))).flatten
  if ds.any Option.isNone then
    .inl (.new "invalid memory address or nil pointer dereference")
  else if (nonNil ds).any (fun d => old.any (fun e => d.fqName == e.fqName)) then
    .inl (.new "duplicate metrics collector registration attempted")
  else if (nonNil ds).any (fun d => (nonNil ds).any (fun e => d.clashes e)) then
    .inl (.new "a previously registered descriptor with the same fully-qualified name has different label names or a different help string")
  else
    .inr { r with collectors := r.collectors ++ [c] }

/-- The method `Registry.MustRegister` for one collector: `Register`, with
the error turned into a panic (left) by the caller. -/
def Registry.MustRegister (pkg : CollectorPkg) (r : Registry) (c : AnyCollector) :
    GoError ⊕ Registry :=
  r.Register pkg c

/-- A metric is consistent with a descriptor: same name, same label names. -/
def Desc.describes (d : Desc) (m : Metric) : Bool :=
  d.fqName == m.name && d.variableLabels == m.labels.map Prod.fst

/-- The check of one collected metric inside `Gather`: a collector that
described itself may only send metrics of its descriptors, and no metric may
repeat the name and label values of one collected before. -/
def acceptable (ds : List Desc) (seen : List Metric) (m : Metric) : Bool :=
  (ds == [] || ds.any (fun d => d.describes m)) &&
  !(seen.any (fun o => o.name == m.name && o.labels == m.labels))

/-- The loop of `Gather` over the metrics of one collector: the accepted
metrics and the number of rejected ones accumulate. -/
def gatherLoop (ds : List Desc) : List Metric → List Metric × Nat → List Metric × Nat
  | [], acc => acc
  | m :: ms, (seen, errs) =>
    if acceptable ds seen m then gatherLoop ds ms (seen ++ [m], errs)
    else gatherLoop ds ms (seen, errs + 1)

/-- The method `Registry.Gather`: every registered collector collects; the
result is the accepted metrics and the number of errors. -/
def Registry.Gather (pkg : CollectorPkg) (r : Registry) (dev : Device) : List Metric × Nat :=
  r.collectors.foldl
    (fun acc c => gatherLoop (nonNil (c.descs pkg)) (c.collect pkg dev) acc) ([], 0)

/-- The type `promhttp.HandlerErrorHandling`. -/
inductive HandlerErrorHandling where
  | HTTPErrorOnError
  | ContinueOnError
  | PanicOnError
  deriving DecidableEq, Repr

/-- The struct `promhttp.HandlerOpts`; the error log goes to standard error
and is left out. -/
structure HandlerOpts where
  ErrorHandling : HandlerErrorHandling
  deriving DecidableEq, Repr

/-- A response: the status code, the id of the registry the body was gathered
from, and the metrics of the body. -/
structure Response where
  status : Nat
  registry : Nat
  body : List Metric
  deriving DecidableEq, Repr

/-- How one run of a handler ends: with a panic, which `net/http` recovers
for the connection, or with a response. -/
inductive HandlerResult where
  | panicked (err : GoError)
  | responded (r : Response)
  deriving DecidableEq, Repr

/-- The handler `promhttp.HandlerFor(reg, opts).ServeHTTP`: it gathers from
`reg`; on a gathering error the option decides, and `ContinueOnError` still
answers 200 unless no metric at all was gathered. -/
def HandlerFor (pkg : CollectorPkg) (reg : Registry) (opts : HandlerOpts) (dev : Device) :
    HandlerResult :=
  let (mfs, errs) := reg.Gather pkg dev
  if errs ≠ 0 then
    match opts.ErrorHandling with
    | .PanicOnError => .panicked (.new "error gathering metrics")
    | .ContinueOnError =>
      if mfs.length = 0 then .responded { status := 500, registry := reg.id, body := [] }
      else .responded { status := 200, registry := reg.id, body := mfs }
    | .HTTPErrorOnError => .responded { status := 500, registry := reg.id, body := [] }
  else .responded { status := 200, registry := reg.id, body := mfs }

/-! ## Events and environment -/

/-- The three handlers that `start` registers. -/
inductive HandlerId where
  | index
  | handleMetricsRequest
  | handleDocsisMetricsRequest
  deriving DecidableEq, Repr

/-- What one run of a metrics handler did: the registry it created, the
collector it created, the collectors held by that registry after
`MustRegister`, and how the run ended. -/
structure HandlerRun where
  registry : Registry
  collector : AnyCollector
  registered : List AnyCollector
  result : HandlerResult
  deriving DecidableEq, Repr

/-- The observable steps of the process, in program order. -/
inductive Event where
  | print (text : String)
  | log (msg : String)
  | readFile (path : String)
  | describe (c : Collector)
  | newVodafoneStation (url password : String)
  | handleFunc (pattern : String) (h : HandlerId)
  | listenAndServe (addr : String)
  | servedIndex (page : String)
  | served (h : HandlerId) (run : HandlerRun)
  | notFound
  deriving DecidableEq, Repr

/-- How the process ends: `os.Exit(code)`, an unrecovered panic, or the
return of `main`. -/
inductive Outcome where
  | exit (code : Nat)
  | panic (err : GoError)
  | returned
  deriving DecidableEq, Repr

/-- An inbound request as the server sees it: the registered pattern the
request multiplexer matched it to, and what the device answers while the
request is handled. -/
structure Request where
  pattern : String
  device : Device
  deriving DecidableEq, Repr

/-- What `http.ListenAndServe` does: it fails to listen and serves nothing,
or it serves some requests and then returns its (never nil) error. -/
inductive ListenResult where
  | failed (err : GoError)
  | served (reqs : List Request) (err : GoError)
  deriving DecidableEq, Repr

/-- The answers of the operating system and of the libraries: `os.ReadFile`
(the file content or an error), `http.HandleFunc` (the panic value, if the
multiplexer refuses the pattern given the patterns registered before), and
`http.ListenAndServe`; and the package `collector`. -/
structure Env where
  ReadFile : String → GoError ⊕ String
  HandleFunc : List String → String → Option GoError
  ListenAndServe : String → ListenResult
  pkg : CollectorPkg

/-- A run of the process: what it did and how it ended. -/
structure Run where
  trace : List Event
  outcome : Outcome
  deriving DecidableEq, Repr

/-- The text written to standard output by a list of events. -/
def stdoutOf : List Event → String
  | [] => ""
  | .print text :: es => text ++ stdoutOf es
  | _ :: es => stdoutOf es

/-! ## The listing mode -/

/-- The loop of `describeMetric` over the labels that are left; `first` is
the loop variable of that name. -/
def describeLabels : List String → Bool → List Event
  | [], _ => []
  | l :: rest, first =>
    (if !first then [Event.print ", "] else []) ++
      Event.print ("`" ++ l ++ "`") :: describeLabels rest false

/-- The function `describeMetric`. -/
def describeMetric (desc : Desc) : List Event :=
  let fqName := desc.fqName
  let help := desc.help
  let labels := desc.variableLabels
  Event.print ("  * `" ++ fqName ++ "`: " ++ help ++ "\n") ::
    (if labels.length = 0 then []
     else Event.print "    - Labels: " :: (describeLabels labels true ++ [Event.print ("" ++ "\n")]))

/-- The loop of `describeMetrics` over the descriptors received from the
channel; a nil descriptor is skipped. -/
def describeLoop : List (Option Desc) → List Event
  | [] => []
  | none :: rest => describeLoop rest
  | some desc :: rest => describeMetric desc ++ describeLoop rest

/-- The function `describeMetrics`: the goroutine sends the descriptors of a
zero-valued `Collector` on the channel, the loop receives them in the order
sent. -/
def describeMetrics (env : Env) : List Event :=
  let c : Collector := { Station := none }
  Event.print ("Exported metrics" ++ "\n") :: Event.describe c ::
    describeLoop (env.pkg.Describe c)

/-! ## The server -/

/-- The struct `server`. -/
structure server where
  station : VodafoneStation
  deriving DecidableEq, Repr

/-- The options both handlers pass to `promhttp.HandlerFor`. -/
def handlerOpts : HandlerOpts :=
  { ErrorHandling := .ContinueOnError }

/-- The common body of the two handlers once the collector is built:
`MustRegister`, then `HandlerFor(registry, opts).ServeHTTP`. -/
def registerAndServe (pkg : CollectorPkg) (registry : Registry) (c : AnyCollector)
    (request : Request) : HandlerRun :=
  match registry.MustRegister pkg c with
  | .inl err =>
    { registry := registry, collector := c, registered := registry.collectors,
      result := .panicked err }
  | .inr registry' =>
    { registry := registry, collector := c, registered := registry'.collectors,
      result := HandlerFor pkg registry' handlerOpts request.device }

/-- The method `handleMetricsRequest`. -/
def server.handleMetricsRequest (pkg : CollectorPkg) (s : server) (h : Heap)
    (request : Request) : HandlerRun × server × Heap :=
  let (registry, h') := NewRegistry h
  let c : Collector := { Station := none }
  let c : Collector := { c with Station := some s.station }
  (registerAndServe pkg registry (.general c) request, s, h')

/-- The method `handleDocsisMetricsRequest`. -/
def server.handleDocsisMetricsRequest (pkg : CollectorPkg) (s : server) (h : Heap)
    (request : Request) : HandlerRun × server × Heap :=
  let (registry, h') := NewRegistry h
  let c : DocsisCollector := { Station := none }
  let c : DocsisCollector := { c with Station := some s.station }
  (registerAndServe pkg registry (.docsis c) request, s, h')

/-- The page of the handler registered for the pattern "/". -/
def indexPage (f : Flags) : String :=
  "<html>\n" ++
  "            <head><title>vodafone-station-exporter (Version " ++ version ++ ")</title></head>\n" ++
  "            <body>\n" ++
  "            <h1>vodafone-station-exporter</h1>\n" ++
  "            <p><a href=\"" ++ f.vodafoneStationUrl ++ "\">Station Login</a></p>\n" ++
  "            <h2>Metrics</h2>\n" ++
  "            <ul>\n" ++
  "            <li><a href=\"" ++ f.metricsPath ++ "\">metrics</a>\n" ++
  "            <li><a href=\"" ++ f.docsisMetricsPath ++ "\">docsis metrics</a>\n" ++
  "            </ul>\n" ++
  "            </body>\n" ++
  "            </html>"

/-- The handler registered for a pattern, first registration first. -/
def lookupHandler (mux : List (String × HandlerId)) (pattern : String) : Option HandlerId :=
  (mux.find? (fun e => e.1 == pattern)).map Prod.snd

/-- The dispatch of one request by the server to the handler registered for
the matched pattern. -/
def dispatch (pkg : CollectorPkg) (f : Flags) (mux : List (String × HandlerId))
    (s : server) (h : Heap) (request : Request) : Event × server × Heap :=
  match lookupHandler mux request.pattern with
  | none => (.notFound, s, h)
  | some .index => (.servedIndex (indexPage f), s, h)
  | some .handleMetricsRequest =>
    let r := s.handleMetricsRequest pkg h request
    (.served .handleMetricsRequest r.1, r.2.1, r.2.2)
  | some .handleDocsisMetricsRequest =>
    let r := s.handleDocsisMetricsRequest pkg h request
    (.served .handleDocsisMetricsRequest r.1, r.2.1, r.2.2)

/-- The requests served one after the other, the server value and the
allocations carried from one to the next. -/
def serveAll (pkg : CollectorPkg) (f : Flags) (mux : List (String × HandlerId)) :
    server → Heap → List Request → List Event × server × Heap
  | s, h, [] => ([], s, h)
  | s, h, request :: rest =>
    let r := dispatch pkg f mux s h request
    let rs := serveAll pkg f mux r.2.1 r.2.2 rest
    (r.1 :: rs.1, rs.2.1, rs.2.2)

/-- The method `start`.  Each `http.HandleFunc` may panic, which ends the
process; the patterns registered before are handed to the environment. -/
def server.start (env : Env) (f : Flags) (s : server) : Run :=
  let t0 := [Event.log ("Starting vodafone-station-exporter (version " ++ version ++ ")"),
    Event.handleFunc "/" .index]
  match env.HandleFunc [] "/" with
  | some err => { trace := t0, outcome := .panic err }
  | none =>
    let t1 := t0 ++ [Event.log ("serving metrics on " ++ f.metricsPath),
      Event.handleFunc f.metricsPath .handleMetricsRequest]
    match env.HandleFunc ["/"] f.metricsPath with
    | some err => { trace := t1, outcome := .panic err }
    | none =>
      let t2 := t1 ++ [Event.log ("serving docsis metrics on " ++ f.docsisMetricsPath),
        Event.handleFunc f.docsisMetricsPath .handleDocsisMetricsRequest]
      match env.HandleFunc ["/", f.metricsPath] f.docsisMetricsPath with
      | some err => { trace := t2, outcome := .panic err }
      | none =>
        let mux := [("/", HandlerId.index), (f.metricsPath, .handleMetricsRequest),
          (f.docsisMetricsPath, .handleDocsisMetricsRequest)]
        let t3 := t2 ++ [Event.log ("Listening on " ++ f.listenAddress),
          Event.listenAndServe f.listenAddress]
        match env.ListenAndServe f.listenAddress with
        | .failed err =>
          { trace := t3 ++ [Event.log ("Failed to listen: " ++ err.Error)],
            outcome := .returned }
        | .served reqs err =>
          { trace := t3 ++ (serveAll env.pkg f mux s { registries := 0 } reqs).1 ++
              [Event.log ("Failed to listen: " ++ err.Error)],
            outcome := .returned }

/-! ## The entry point -/

/-- The tail of `main` from the test of the version flag on, with the
password that is in the flag variable at that point. -/
def mainFromVersion (env : Env) (f : Flags) (password : String) : Run :=
  if f.showVersion then
    { trace :=
        [Event.print ("vodafone-station-exporter" ++ "\n"),
         Event.print ("Version: " ++ version ++ "\n"),
         Event.print ("Author: @fluepke" ++ "\n"),
         Event.print ("Prometheus Exporter for the Vodafone Station (CGA4233DE)" ++ "\n")],
      outcome := .exit 0 }
  else
    let s : server := { station := NewVodafoneStation f.vodafoneStationUrl password }
    let r := s.start env f
    { trace := Event.newVodafoneStation f.vodafoneStationUrl password :: r.trace,
      outcome := r.outcome }

/-- The function `main`. -/
def main (env : Env) (f : Flags) : Run :=
  if f.showMetrics then
    { trace := describeMetrics env, outcome := .exit 0 }
  else if f.vodafoneStationPasswordFile ≠ "" then
    let opening :=
      [Event.log ("Using password file (" ++ f.vodafoneStationPasswordFile ++ ")"),
       Event.readFile f.vodafoneStationPasswordFile]
    match env.ReadFile f.vodafoneStationPasswordFile with
    | .inl err =>
      { trace := opening, outcome := .panic (Errorf "failed to read password file: " err) }
    | .inr data =>
      let r := mainFromVersion env f (TrimSpace data)
      { trace := opening ++ r.trace, outcome := r.outcome }
  else
    mainFromVersion env f f.vodafoneStationPassword

/-! ## The collectors as the specification describes them -/

/-- Modelled from the spec: the package `collector` is not part of the source
at hand.  The general collector declares one descriptor per metric: the up
gauge, uptime, wan link, client count, temperature and reboot count, none of
them with labels. -/
def generalDescs : List Desc :=
  [{ fqName := "up", help := "whether the scrape of the device succeeded", variableLabels := [] },
   { fqName := "uptime", help := "uptime in seconds", variableLabels := [] },
   { fqName := "wan_link", help := "wan link as 0/1", variableLabels := [] },
   { fqName := "client_count", help := "connected-client count", variableLabels := [] },
   { fqName := "temperature", help := "device temperature in celsius", variableLabels := [] },
   { fqName := "reboot_count", help := "reboot count", variableLabels := [] }]

/-- Modelled from the spec: the label names of every per-channel metric. -/
def channelLabels : List String := ["channel", "direction"]

/-- Modelled from the spec: the descriptors of the DOCSIS collector: the up
gauge and, per channel, frequency, power, SNR, the two error counters and the
lock status. -/
def docsisDescs : List Desc :=
  [{ fqName := "up", help := "whether the scrape of the device succeeded", variableLabels := [] },
   { fqName := "frequency", help := "channel frequency in Hz", variableLabels := channelLabels },
   { fqName := "power", help := "channel power level in dBmV", variableLabels := channelLabels },
   { fqName := "snr", help := "signal to noise ratio in dB", variableLabels := channelLabels },
   { fqName := "correctable_errors", help := "correctable error count",
     variableLabels := channelLabels },
   { fqName := "uncorrectable_errors", help := "uncorrectable error count",
     variableLabels := channelLabels },
   { fqName := "lock_status", help := "lock status as 0/1", variableLabels := channelLabels }]

/-- Modelled from the spec: the collect operation of the general collector.
A failed read gives exactly one up sample with value 0; a successful one
gives up = 1 and one sample per declared metric, the temperature only when
the device reported one. -/
def specCollect (_c : Collector) (dev : Device) : List Metric :=
  match dev.general with
  | .inl _ => [{ name := "up", labels := [], value := 0 }]
  | .inr st =>
    [{ name := "up", labels := [], value := 1 },
     { name := "uptime", labels := [], value := st.uptimeSeconds },
     { name := "wan_link", labels := [], value := if st.wanLinkUp then 1 else 0 },
     { name := "client_count", labels := [], value := st.connectedClientCount }] ++
    (match st.deviceTemperatureCelsius with
     | none => []
     | some t => [{ name := "temperature", labels := [], value := t }]) ++
    [{ name := "reboot_count", labels := [], value := st.rebootCount }]

/-- Modelled from the spec: the label set of one channel. -/
def channelLabelSet (ch : DocsisChannel) : List (String × String) :=
  [("channel", toString ch.channelId),
   ("direction", match ch.direction with
      | .upstream => "upstream"
      | .downstream => "downstream")]

/-- Modelled from the spec: the sample group of one channel; SNR for a
downstream channel only, the other fields also when the channel is not
locked. -/
def channelMetrics (ch : DocsisChannel) : List Metric :=
  [{ name := "frequency", labels := channelLabelSet ch, value := ch.frequencyHz },
   { name := "power", labels := channelLabelSet ch, value := ch.powerDbmV }] ++
  (match ch.direction, ch.signalToNoiseDb with
   | .downstream, some v => [{ name := "snr", labels := channelLabelSet ch, value := v }]
   | _, _ => []) ++
  [{ name := "correctable_errors", labels := channelLabelSet ch,
     value := ch.correctableErrorCount },
   { name := "uncorrectable_errors", labels := channelLabelSet ch,
     value := ch.uncorrectableErrorCount },
   { name := "lock_status", labels := channelLabelSet ch, value := if ch.locked then 1 else 0 }]

/-- Modelled from the spec: the collect operation of the DOCSIS collector,
with the up/down policy of the general one. -/
def specDocsisCollect (_c : DocsisCollector) (dev : Device) : List Metric :=
  match dev.docsis with
  | .inl _ => [{ name := "up", labels := [], value := 0 }]
  | .inr chans =>
    { name := "up", labels := [], value := 1 } :: (chans.map channelMetrics).flatten

/-- Modelled from the spec: the package `collector`, with statically declared
descriptors that do not depend on the collector value. -/
def specPkg : CollectorPkg where
  Describe := fun _ => generalDescs.map some
  Collect := specCollect
  DocsisDescribe := fun _ => docsisDescs.map some
  DocsisCollect := specDocsisCollect

/-! ## The listing, as the specification words it -/

/-- The label line of the listing in the words of the specification: the
label names in backquotes, separated by a comma and a blank. -/
def labelsLine (labels : List String) : String :=
  "    - Labels: " ++ ", ".intercalate (labels.map (fun l => "`" ++ l ++ "`")) ++ "\n"

/-- The listing entry of one descriptor in the words of the specification:
the line with name and help, and a label line exactly when there are
labels. -/
def listingEntry (d : Desc) : String :=
  "  * `" ++ d.fqName ++ "`: " ++ d.help ++ "\n" ++
    (if d.variableLabels = [] then "" else labelsLine d.variableLabels)

/-- The whole listing in the words of the specification: the header, then the
entry of every non-nil descriptor in the order sent. -/
def listing (ds : List (Option Desc)) : String :=
  "Exported metrics\n" ++ String.join ((nonNil ds).map listingEntry)

/-! ## Kinds of events -/

/-- The events of the server handling a request. -/
def Event.isRequest : Event → Bool
  | .servedIndex _ => true
  | .served _ _ => true
  | .notFound => true
  | _ => false

/-- The events `start` can produce: log lines, registrations, the call of
`ListenAndServe`, and the handling of requests. -/
def Event.isStart : Event → Bool
  | .log _ => true
  | .handleFunc _ _ => true
  | .listenAndServe _ => true
  | e => e.isRequest

/-- The runs of the metrics handlers in a trace, in order. -/
def handlerRuns : List Event → List HandlerRun
  | [] => []
  | .served _ run :: es => run :: handlerRuns es
  | _ :: es => handlerRuns es

/-- The text the version mode writes. -/
def versionText : String :=
  "vodafone-station-exporter\n" ++ "Version: 0.0.1\n" ++ "Author: @fluepke\n" ++
    "Prometheus Exporter for the Vodafone Station (CGA4233DE)\n"

/-! ## Example environment -/

/-- A device on which every read succeeds, with one locked downstream and one
unlocked upstream channel. -/
def exampleDevice : Device where
  general := .inr
    { uptimeSeconds := 86400, wanLinkUp := true, connectedClientCount := 7,
      deviceTemperatureCelsius := none, firmwareVersion := "19.3B80-3.5.13", rebootCount := 2 }
  docsis := .inr
    [{ channelId := 1, direction := .downstream, frequencyHz := 602000000, powerDbmV := 3,
       signalToNoiseDb := some 40, locked := true, correctableErrorCount := 12,
       uncorrectableErrorCount := 0 },
     { channelId := 1, direction := .upstream, frequencyHz := 51000000, powerDbmV := 45,
       signalToNoiseDb := none, locked := false, correctableErrorCount := 0,
       uncorrectableErrorCount := 0 }]

/-- A device that rejects the credentials on every read. -/
def rejectingDevice : Device where
  general := .inl .AuthError
  docsis := .inl .AuthError

/-- An environment: one readable password file, a multiplexer that accepts
every registration, a listener that is refused on port 80 and otherwise
serves three requests, and the collectors of the specification. -/
def exampleEnv : Env where
  ReadFile := fun path =>
    if path = "/run/secrets/station" then .inr " \ts3cret pass\r\n"
    else .inl (.new ("open " ++ path ++ ": no such file or directory"))
  HandleFunc := fun _ _ => none
  ListenAndServe := fun addr =>
    if addr = ":80" then .failed (.new "listen tcp :80: bind: permission denied")
    else .served
      [{ pattern := "/metrics", device := exampleDevice },
       { pattern := "/docsis/metrics", device := rejectingDevice },
       { pattern := "/metrics", device := rejectingDevice }]
      (.new "http: Server closed")
  pkg := specPkg

/-- Flags with both mode flags set. -/
def versionAndMetricsFlags : Flags :=
  { defaultFlags with showVersion := true, showMetrics := true }

/-- Flags with the version flag set and a password file that does not
exist. -/
def versionUnreadableFlags : Flags :=
  { defaultFlags with showVersion := true, vodafoneStationPasswordFile := "/nonexistent" }

/-- Flags with the version flag set and the readable password file. -/
def versionFlags : Flags :=
  { defaultFlags with showVersion := true, vodafoneStationPasswordFile := "/run/secrets/station" }

/-- Flags of the listing mode, with a password file that does not exist. -/
def listingFlags : Flags :=
  { defaultFlags with showMetrics := true, vodafoneStationPasswordFile := "/nonexistent" }

/-- Flags of the serving mode with a password file that does not exist. -/
def unreadableFlags : Flags :=
  { defaultFlags with vodafoneStationPasswordFile := "/nonexistent" }

/-- Flags of the serving mode with the readable password file. -/
def fileFlags : Flags :=
  { defaultFlags with vodafoneStationPasswordFile := "/run/secrets/station" }

/-- Flags of the serving mode with a listen address that is refused. -/
def refusedFlags : Flags :=
  { defaultFlags with listenAddress := ":80" }

/-- A handler run that stands alone: its registry was empty when created,
its collector holds the station of the server, and the registry held exactly
that collector when the response was gathered from it (and nothing after a
panic of `MustRegister`). -/
def isolatedRun (s : server) (run : HandlerRun) : Prop :=
  run.registry.collectors = [] ∧
  (run.collector = .general { Station := some s.station } ∨
    run.collector = .docsis { Station := some s.station }) ∧
  match run.result with
  | .responded resp => run.registered = [run.collector] ∧ resp.registry = run.registry.id
  | .panicked _ => run.registered = []

/-! ## Standard output of a trace -/

theorem stdoutOf_append (xs ys : List Event) :
    stdoutOf (xs ++ ys) = stdoutOf xs ++ stdoutOf ys := by
  induction xs with
  | nil => simp [stdoutOf]
  | cons e es ih => cases e <;> simp [stdoutOf, ih, String.append_assoc]

theorem join_cons (a : String) (ss : List String) :
    String.join (a :: ss) = a ++ String.join ss := by
  apply String.ext
  simp [String.join_eq, String.data_append]

theorem intercalate_go_eq (sep acc : String) (ls : List String) :
    String.intercalate.go acc sep ls = acc ++ String.join (ls.map (fun l => sep ++ l)) := by
  induction ls generalizing acc with
  | nil => simp [String.intercalate.go, String.join]
  | cons l rest ih =>
    simp only [String.intercalate.go, ih, List.map_cons, join_cons, String.append_assoc]

theorem stdoutOf_describeLabels_rest (ls : List String) :
    stdoutOf (describeLabels ls false) =
      String.join (ls.map (fun l => ", " ++ ("`" ++ l ++ "`"))) := by
  induction ls with
  | nil => simp [describeLabels, stdoutOf, String.join]
  | cons l rest ih =>
    simp only [describeLabels, Bool.not_false, if_true, List.singleton_append, stdoutOf, ih,
      List.map_cons, join_cons, String.append_assoc]

theorem stdoutOf_describeLabels (l : String) (rest : List String) :
    stdoutOf (describeLabels (l :: rest) true) =
      ", ".intercalate ((l :: rest).map (fun l => "`" ++ l ++ "`")) := by
  simp only [describeLabels, Bool.not_true, List.nil_append, stdoutOf,
    stdoutOf_describeLabels_rest, List.map_cons, String.intercalate, intercalate_go_eq,
    List.map_map]
  rfl

theorem stdoutOf_print (text : String) (es : List Event) :
    stdoutOf (Event.print text :: es) = text ++ stdoutOf es := rfl

theorem nonNil_none (ds : List (Option Desc)) : nonNil (none :: ds) = nonNil ds := rfl

theorem nonNil_some (d : Desc) (ds : List (Option Desc)) :
    nonNil (some d :: ds) = d :: nonNil ds := rfl

theorem stdoutOf_describeMetric (d : Desc) :
    stdoutOf (describeMetric d) = listingEntry d := by
  obtain ⟨n, h, ls⟩ := d
  cases ls with
  | nil => simp [describeMetric, listingEntry, stdoutOf]
  | cons l rest =>
    have hl : stdoutOf (describeLabels (l :: rest) true ++ [Event.print ("" ++ "\n")]) =
        ", ".intercalate ((l :: rest).map (fun l => "`" ++ l ++ "`")) ++ "\n" := by
      rw [stdoutOf_append, stdoutOf_describeLabels]
      rfl
    have hd : describeMetric ⟨n, h, l :: rest⟩ =
        Event.print ("  * `" ++ n ++ "`: " ++ h ++ "\n") :: Event.print "    - Labels: " ::
          (describeLabels (l :: rest) true ++ [Event.print ("" ++ "\n")]) := by
      simp [describeMetric]
    rw [hd, stdoutOf_print, stdoutOf_print, hl]
    simp [listingEntry, labelsLine, String.append_assoc]

theorem stdoutOf_describeLoop (ds : List (Option Desc)) :
    stdoutOf (describeLoop ds) = String.join ((nonNil ds).map listingEntry) := by
  induction ds with
  | nil => simp [describeLoop, stdoutOf, nonNil, String.join]
  | cons d rest ih =>
    cases d with
    | none => simpa [describeLoop, nonNil_none] using ih
    | some d =>
      rw [describeLoop, stdoutOf_append, stdoutOf_describeMetric, ih, nonNil_some,
        List.map_cons, join_cons]

theorem stdoutOf_describeMetrics (env : Env) :
    stdoutOf (describeMetrics env) = listing (env.pkg.Describe { Station := none }) := by
  simp only [describeMetrics, stdoutOf, stdoutOf_describeLoop, listing]
  rfl

theorem describeLoop_eq (ds : List (Option Desc)) :
    describeLoop ds = ((nonNil ds).map describeMetric).flatten := by
  induction ds with
  | nil => rfl
  | cons d rest ih =>
    cases d with
    | none => simpa [describeLoop, nonNil_none] using ih
    | some d => simp [describeLoop, nonNil_some, ih]

theorem describeLabels_prints (ls : List String) (first : Bool) :
    ∀ e ∈ describeLabels ls first, ∃ text, e = Event.print text := by
  induction ls generalizing first with
  | nil => simp [describeLabels]
  | cons l rest ih =>
    intro e he
    simp only [describeLabels, List.mem_append, List.mem_cons] at he
    rcases he with he | he | he
    · cases first <;> simp at he
      exact ⟨_, he⟩
    · exact ⟨_, he⟩
    · exact ih false e he

theorem describeMetric_prints (d : Desc) :
    ∀ e ∈ describeMetric d, ∃ text, e = Event.print text := by
  intro e he
  simp only [describeMetric, List.mem_cons] at he
  rcases he with he | he
  · exact ⟨_, he⟩
  · split at he
    · simp at he
    · simp only [List.mem_cons, List.mem_append, List.not_mem_nil, or_false] at he
      rcases he with he | he | he
      · exact ⟨_, he⟩
      · exact describeLabels_prints _ _ e he
      · exact ⟨_, he⟩

theorem describeLoop_prints (ds : List (Option Desc)) :
    ∀ e ∈ describeLoop ds, ∃ text, e = Event.print text := by
  induction ds with
  | nil => simp [describeLoop]
  | cons d rest ih =>
    cases d with
    | none => simpa [describeLoop] using ih
    | some d =>
      intro e he
      simp only [describeLoop, List.mem_append] at he
      rcases he with he | he
      · exact describeMetric_prints d e he
      · exact ih e he

theorem describeMetrics_events (env : Env) :
    ∀ e ∈ describeMetrics env,
      (∃ text, e = Event.print text) ∨ e = Event.describe { Station := none } := by
  intro e he
  simp only [describeMetrics, List.mem_cons] at he
  rcases he with he | he | he
  · exact Or.inl ⟨_, he⟩
  · exact Or.inr he
  · exact Or.inl (describeLoop_prints _ e he)

/-! ## The listing mode (claims C1 and C3) -/

/-- Claim C1: when the flag show-metrics is set, `main` runs `describeMetrics`
and exits with status 0, whatever the other flags are.  Every step of the run
is a write to standard output or the one call of `Describe`, made on a
collector whose `Station` is nil: the password file is not read, no device
client is constructed, no handler is registered, the server is not started
and no request is served. -/
theorem show_metrics_lists_and_exits (env : Env) (f : Flags) (h : f.showMetrics = true) :
    (main env f).trace = describeMetrics env ∧
    (main env f).outcome = Outcome.exit 0 ∧
    (∀ e ∈ (main env f).trace,
      (∃ text, e = Event.print text) ∨ e = Event.describe { Station := none }) ∧
    (∀ c, Event.describe c ∈ (main env f).trace → c.Station = none) ∧
    (∀ path, Event.readFile path ∉ (main env f).trace) ∧
    (∀ url password, Event.newVodafoneStation url password ∉ (main env f).trace) ∧
    (∀ pattern hid, Event.handleFunc pattern hid ∉ (main env f).trace) ∧
    (∀ addr, Event.listenAndServe addr ∉ (main env f).trace) ∧
    (∀ hid run, Event.served hid run ∉ (main env f).trace) := by
  have ht : (main env f).trace = describeMetrics env := by simp [main, h]
  have ho : (main env f).outcome = Outcome.exit 0 := by simp [main, h]
  have hall := describeMetrics_events env
  rw [ht]
  refine ⟨rfl, ho, hall, ?_, ?_, ?_, ?_, ?_, ?_⟩
  · intro c hc
    rcases hall _ hc with ⟨t, ht'⟩ | hd
    · cases ht'
    · cases hd; rfl
  all_goals
    intros
    intro hc
    rcases hall _ hc with ⟨t, ht'⟩ | hd
    · cases ht'
    · cases hd

/-- Claim C1 at the example: show-metrics together with a password file that
does not exist; the run is the listing and ends with status 0. -/
theorem show_metrics_lists_and_exits_witness :
    listingFlags.showMetrics = true ∧
    (main exampleEnv listingFlags).trace = describeMetrics exampleEnv ∧
    (main exampleEnv listingFlags).outcome = Outcome.exit 0 :=
  ⟨rfl, (show_metrics_lists_and_exits exampleEnv listingFlags rfl).1,
    (show_metrics_lists_and_exits exampleEnv listingFlags rfl).2.1⟩

/-- Claim C3: `describeMetric` writes the line with name and help text and
then, exactly when the descriptor has labels, one line with the label names
in declaration order, each in backquotes, joined by a comma and a blank.
`describeMetrics` writes the header first and then does this for the non-nil
descriptors in the order `Describe` sends them. -/
theorem listing_format (env : Env) (d : Desc) :
    stdoutOf (describeMetric d) =
      "  * `" ++ d.fqName ++ "`: " ++ d.help ++ "\n" ++
        (if d.variableLabels = [] then ""
         else "    - Labels: " ++
           ", ".intercalate (d.variableLabels.map (fun l => "`" ++ l ++ "`")) ++ "\n") ∧
    describeMetrics env =
      Event.print "Exported metrics\n" :: Event.describe { Station := none } ::
        ((nonNil (env.pkg.Describe { Station := none })).map describeMetric).flatten ∧
    stdoutOf (describeMetrics env) =
      "Exported metrics\n" ++
        String.join ((nonNil (env.pkg.Describe { Station := none })).map
          (fun d => stdoutOf (describeMetric d))) := by
  refine ⟨?_, ?_, ?_⟩
  · rw [stdoutOf_describeMetric]; rfl
  · simp only [describeMetrics, describeLoop_eq]; rfl
  · have hfun : (fun d => stdoutOf (describeMetric d)) = listingEntry :=
      funext stdoutOf_describeMetric
    rw [hfun, stdoutOf_describeMetrics, listing]

/-! ## Trimming -/

theorem dropWhile_eq_self_of_head (p : Char → Bool) (l : List Char)
    (h : ∀ c, l.head? = some c → p c = false) : l.dropWhile p = l := by
  cases l with
  | nil => rfl
  | cons a rest => simp [List.dropWhile, h a rfl]

theorem head_dropWhile_false (p : Char → Bool) (l : List Char) (c : Char)
    (h : (l.dropWhile p).head? = some c) : p c = false := by
  have := List.head?_dropWhile_not p l
  rw [h] at this
  exact this

theorem trimSpaceChars_split (cs : List Char) :
    ∃ pre suf, cs = pre ++ trimSpaceChars cs ++ suf ∧
      (∀ c ∈ pre, isSpace c = true) ∧ (∀ c ∈ suf, isSpace c = true) := by
  refine ⟨cs.takeWhile isSpace, ((cs.dropWhile isSpace).reverse.takeWhile isSpace).reverse,
    ?_, ?_, ?_⟩
  · have h1 : ((cs.dropWhile isSpace).reverse.dropWhile isSpace).reverse ++
        ((cs.dropWhile isSpace).reverse.takeWhile isSpace).reverse = cs.dropWhile isSpace := by
      rw [← List.reverse_append, List.takeWhile_append_dropWhile, List.reverse_reverse]
    rw [trimSpaceChars, List.append_assoc, h1, List.takeWhile_append_dropWhile]
  · intro c hc
    exact List.mem_takeWhile_imp hc
  · intro c hc
    exact List.mem_takeWhile_imp (List.mem_reverse.mp hc)

theorem trimSpaceChars_getLast (cs : List Char) (c : Char)
    (h : (trimSpaceChars cs).getLast? = some c) : isSpace c = false := by
  rw [trimSpaceChars, List.getLast?_reverse] at h
  exact head_dropWhile_false _ _ _ h

theorem trimSpaceChars_head (cs : List Char) (c : Char)
    (h : (trimSpaceChars cs).head? = some c) : isSpace c = false := by
  have h1 : trimSpaceChars cs ++
      ((cs.dropWhile isSpace).reverse.takeWhile isSpace).reverse = cs.dropWhile isSpace := by
    rw [trimSpaceChars, ← List.reverse_append, List.takeWhile_append_dropWhile,
      List.reverse_reverse]
  apply head_dropWhile_false isSpace cs c
  rw [← h1]
  cases ht : trimSpaceChars cs with
  | nil => rw [ht] at h; cases h
  | cons a rest => rw [ht] at h; simpa using h

theorem trimSpaceChars_idempotent (cs : List Char) :
    trimSpaceChars (trimSpaceChars cs) = trimSpaceChars cs := by
  have hd : (trimSpaceChars cs).dropWhile isSpace = trimSpaceChars cs :=
    dropWhile_eq_self_of_head _ _ (trimSpaceChars_head cs)
  have hr : (trimSpaceChars cs).reverse.dropWhile isSpace = (trimSpaceChars cs).reverse := by
    apply dropWhile_eq_self_of_head
    intro c hc
    apply trimSpaceChars_getLast cs c
    rw [← List.head?_reverse]
    exact hc
  calc trimSpaceChars (trimSpaceChars cs)
      = (((trimSpaceChars cs).dropWhile isSpace).reverse.dropWhile isSpace).reverse := rfl
    _ = ((trimSpaceChars cs).reverse.dropWhile isSpace).reverse := by rw [hd]
    _ = trimSpaceChars cs := by rw [hr, List.reverse_reverse]

theorem TrimSpace_idempotent (s : String) : TrimSpace (TrimSpace s) = TrimSpace s := by
  simp [TrimSpace, trimSpaceChars_idempotent]

/-! ## The shape of a run of `main` -/

theorem main_showMetrics (env : Env) (f : Flags) (h : f.showMetrics = true) :
    main env f = { trace := describeMetrics env, outcome := .exit 0 } := by
  simp [main, h]

theorem main_readError (env : Env) (f : Flags) (cause : GoError)
    (hm : f.showMetrics = false) (hp : f.vodafoneStationPasswordFile ≠ "")
    (hr : env.ReadFile f.vodafoneStationPasswordFile = .inl cause) :
    main env f =
      { trace := [Event.log ("Using password file (" ++ f.vodafoneStationPasswordFile ++ ")"),
          Event.readFile f.vodafoneStationPasswordFile],
        outcome := .panic (Errorf "failed to read password file: " cause) } := by
  simp [main, hm, hp, hr]

theorem main_readOk (env : Env) (f : Flags) (data : String)
    (hm : f.showMetrics = false) (hp : f.vodafoneStationPasswordFile ≠ "")
    (hr : env.ReadFile f.vodafoneStationPasswordFile = .inr data) :
    main env f =
      { trace := [Event.log ("Using password file (" ++ f.vodafoneStationPasswordFile ++ ")"),
          Event.readFile f.vodafoneStationPasswordFile] ++
            (mainFromVersion env f (TrimSpace data)).trace,
        outcome := (mainFromVersion env f (TrimSpace data)).outcome } := by
  simp [main, hm, hp, hr]

theorem main_noFile (env : Env) (f : Flags)
    (hm : f.showMetrics = false) (hp : f.vodafoneStationPasswordFile = "") :
    main env f = mainFromVersion env f f.vodafoneStationPassword := by
  simp [main, hm, hp]

theorem mainFromVersion_version (env : Env) (f : Flags) (password : String)
    (hv : f.showVersion = true) :
    mainFromVersion env f password =
      { trace :=
          [Event.print "vodafone-station-exporter\n", Event.print "Version: 0.0.1\n",
           Event.print "Author: @fluepke\n",
           Event.print "Prometheus Exporter for the Vodafone Station (CGA4233DE)\n"],
        outcome := .exit 0 } := by
  rw [mainFromVersion, if_pos hv]
  rfl

theorem mainFromVersion_serve (env : Env) (f : Flags) (password : String)
    (hv : f.showVersion = false) :
    mainFromVersion env f password =
      { trace := Event.newVodafoneStation f.vodafoneStationUrl password ::
          (server.start env f ⟨NewVodafoneStation f.vodafoneStationUrl password⟩).trace,
        outcome :=
          (server.start env f ⟨NewVodafoneStation f.vodafoneStationUrl password⟩).outcome } := by
  simp [mainFromVersion, hv]

theorem dispatch_isRequest (pkg : CollectorPkg) (f : Flags) (mux : List (String × HandlerId))
    (s : server) (h : Heap) (request : Request) :
    (dispatch pkg f mux s h request).1.isRequest = true := by
  unfold dispatch
  split <;> rfl

theorem serveAll_isRequest (pkg : CollectorPkg) (f : Flags) (mux : List (String × HandlerId))
    (reqs : List Request) (s : server) (h : Heap) :
    ∀ e ∈ (serveAll pkg f mux s h reqs).1, e.isRequest = true := by
  induction reqs generalizing s h with
  | nil => simp [serveAll]
  | cons r rest ih =>
    intro e he
    simp only [serveAll, List.mem_cons] at he
    rcases he with he | he
    · rw [he]; exact dispatch_isRequest pkg f mux s h r
    · exact ih _ _ e he

theorem isStart_of_isRequest (e : Event) (h : e.isRequest = true) : e.isStart = true := by
  cases e <;> simp_all [Event.isStart, Event.isRequest]

theorem start_isStart (env : Env) (f : Flags) (s : server) :
    ∀ e ∈ (server.start env f s).trace, e.isStart = true := by
  have hreq : ∀ reqs, ((serveAll env.pkg f
      [("/", HandlerId.index), (f.metricsPath, .handleMetricsRequest),
        (f.docsisMetricsPath, .handleDocsisMetricsRequest)] s { registries := 0 } reqs).1).all
      Event.isStart = true := by
    intro reqs
    rw [List.all_eq_true]
    intro x hx
    exact isStart_of_isRequest x (serveAll_isRequest _ _ _ reqs _ _ x hx)
  have hall : (server.start env f s).trace.all Event.isStart = true := by
    unfold server.start
    split
    · simp [Event.isStart]
    · split
      · simp [Event.isStart]
      · split
        · simp [Event.isStart]
        · split
          · simp [Event.isStart]
          · simp only [List.all_append, hreq]
            simp [Event.isStart]
  exact List.all_eq_true.mp hall

/-! ## The version mode (claim C8) -/

/-- Claim C8, refuted as stated: with the version flag and show-metrics both
set, `main` writes the listing and not the version text; with the version
flag set and a password file that cannot be read, `main` panics and writes
nothing. -/
theorem version_flag_not_unconditional :
    versionAndMetricsFlags.showVersion = true ∧
    stdoutOf (main exampleEnv versionAndMetricsFlags).trace ≠ versionText ∧
    versionUnreadableFlags.showVersion = true ∧
    stdoutOf (main exampleEnv versionUnreadableFlags).trace ≠ versionText ∧
    (main exampleEnv versionUnreadableFlags).outcome ≠ Outcome.exit 0 := by
  refine ⟨rfl, ?_, rfl, ?_, ?_⟩
  · decide
  · decide
  · decide

/-- Claim C8, amended: when the version flag is set, show-metrics is not set,
and the password file is either not given or readable, `main` writes the
four lines of version metadata and exits with status 0; no device client is
constructed, no handler is registered, the server is not started and no
request is served. -/
theorem version_mode_prints_and_exits (env : Env) (f : Flags)
    (hv : f.showVersion = true) (hm : f.showMetrics = false)
    (hfile : f.vodafoneStationPasswordFile = "" ∨
      ∃ data, env.ReadFile f.vodafoneStationPasswordFile = .inr data) :
    stdoutOf (main env f).trace =
      "vodafone-station-exporter\n" ++ "Version: 0.0.1\n" ++ "Author: @fluepke\n" ++
        "Prometheus Exporter for the Vodafone Station (CGA4233DE)\n" ∧
    (main env f).outcome = Outcome.exit 0 ∧
    (∀ url password, Event.newVodafoneStation url password ∉ (main env f).trace) ∧
    (∀ pattern hid, Event.handleFunc pattern hid ∉ (main env f).trace) ∧
    (∀ addr, Event.listenAndServe addr ∉ (main env f).trace) ∧
    (∀ e ∈ (main env f).trace, e.isRequest = false) := by
  by_cases hp : f.vodafoneStationPasswordFile = ""
  · rw [main_noFile env f hm hp, mainFromVersion_version env f _ hv]
    refine ⟨rfl, rfl, ?_, ?_, ?_, ?_⟩ <;> simp [Event.isRequest]
  · rcases hfile with hfile | ⟨data, hr⟩
    · exact absurd hfile hp
    · rw [main_readOk env f data hm hp hr, mainFromVersion_version env f _ hv]
      refine ⟨rfl, rfl, ?_, ?_, ?_, ?_⟩ <;> simp [Event.isRequest]

/-- The amended claim C8 at the example: version flag and a readable password
file. -/
theorem version_mode_prints_and_exits_witness :
    stdoutOf (main exampleEnv versionFlags).trace =
      "vodafone-station-exporter\n" ++ "Version: 0.0.1\n" ++ "Author: @fluepke\n" ++
        "Prometheus Exporter for the Vodafone Station (CGA4233DE)\n" ∧
    (main exampleEnv versionFlags).outcome = Outcome.exit 0 :=
  let h := version_mode_prints_and_exits exampleEnv versionFlags rfl rfl
    (Or.inr ⟨" \ts3cret pass\r\n", rfl⟩)
  ⟨h.1, h.2.1⟩

/-! ## Where the events of a run come from -/

theorem describeMetrics_not_mem (env : Env) (e : Event)
    (h1 : ∀ text, e ≠ Event.print text) (h2 : ∀ c, e ≠ Event.describe c) :
    e ∉ describeMetrics env := by
  intro he
  rcases describeMetrics_events env e he with ⟨t, ht⟩ | hd
  · exact h1 t ht
  · exact h2 _ hd

theorem start_not_mem (env : Env) (f : Flags) (s : server) (e : Event)
    (h : e.isStart = false) : e ∉ (server.start env f s).trace := by
  intro he
  rw [start_isStart env f s e he] at h
  cases h

theorem readFile_mem_main (env : Env) (f : Flags) (path : String)
    (h : Event.readFile path ∈ (main env f).trace) :
    f.showMetrics = false ∧ f.vodafoneStationPasswordFile ≠ "" ∧
      path = f.vodafoneStationPasswordFile := by
  have hstart : ∀ s, Event.readFile path ∉ (server.start env f s).trace :=
    fun s => start_not_mem env f s _ rfl
  cases hm : f.showMetrics with
  | true =>
    rw [main_showMetrics env f hm] at h
    exact absurd h (describeMetrics_not_mem env _ (by simp) (by simp))
  | false =>
    by_cases hp : f.vodafoneStationPasswordFile = ""
    · rw [main_noFile env f hm hp] at h
      cases hv : f.showVersion with
      | true => rw [mainFromVersion_version env f _ hv] at h; simp at h
      | false =>
        rw [mainFromVersion_serve env f _ hv] at h
        simp only [List.mem_cons, reduceCtorEq, false_or] at h
        exact absurd h (hstart _)
    · refine ⟨rfl, hp, ?_⟩
      cases hr : env.ReadFile f.vodafoneStationPasswordFile with
      | inl cause =>
        rw [main_readError env f cause hm hp hr] at h
        simpa using h
      | inr data =>
        rw [main_readOk env f data hm hp hr] at h
        cases hv : f.showVersion with
        | true =>
          rw [mainFromVersion_version env f _ hv] at h
          simpa using h
        | false =>
          rw [mainFromVersion_serve env f _ hv] at h
          simp only [List.mem_append, List.mem_cons, reduceCtorEq, false_or,
            List.not_mem_nil, or_false, Event.readFile.injEq] at h
          rcases h with h | h
          · exact h
          · exact absurd h (hstart _)

theorem newVodafoneStation_mem_main (env : Env) (f : Flags) (url password : String)
    (h : Event.newVodafoneStation url password ∈ (main env f).trace) :
    f.showMetrics = false ∧ f.showVersion = false ∧ url = f.vodafoneStationUrl ∧
      ((f.vodafoneStationPasswordFile = "" ∧ password = f.vodafoneStationPassword) ∨
       (f.vodafoneStationPasswordFile ≠ "" ∧
          ∃ data, env.ReadFile f.vodafoneStationPasswordFile = .inr data ∧
            password = TrimSpace data)) := by
  have hstart : ∀ s, Event.newVodafoneStation url password ∉ (server.start env f s).trace :=
    fun s => start_not_mem env f s _ rfl
  cases hm : f.showMetrics with
  | true =>
    rw [main_showMetrics env f hm] at h
    exact absurd h (describeMetrics_not_mem env _ (by simp) (by simp))
  | false =>
    by_cases hp : f.vodafoneStationPasswordFile = ""
    · rw [main_noFile env f hm hp] at h
      cases hv : f.showVersion with
      | true => rw [mainFromVersion_version env f _ hv] at h; simp at h
      | false =>
        rw [mainFromVersion_serve env f _ hv] at h
        simp only [List.mem_cons, Event.newVodafoneStation.injEq] at h
        rcases h with ⟨h1, h2⟩ | h
        · exact ⟨rfl, rfl, h1, Or.inl ⟨hp, h2⟩⟩
        · exact absurd h (hstart _)
    · cases hr : env.ReadFile f.vodafoneStationPasswordFile with
      | inl cause =>
        rw [main_readError env f cause hm hp hr] at h
        simp at h
      | inr data =>
        rw [main_readOk env f data hm hp hr] at h
        cases hv : f.showVersion with
        | true =>
          rw [mainFromVersion_version env f _ hv] at h
          simp at h
        | false =>
          rw [mainFromVersion_serve env f _ hv] at h
          simp only [List.mem_append, List.mem_cons, reduceCtorEq, false_or,
            List.not_mem_nil, or_false, Event.newVodafoneStation.injEq] at h
          rcases h with ⟨h1, h2⟩ | h
          · exact ⟨rfl, rfl, h1, Or.inr ⟨hp, data, rfl, h2⟩⟩
          · exact absurd h (hstart _)

/-- The four ways a run of `main` can go. -/
theorem main_cases (env : Env) (f : Flags) :
    (f.showMetrics = true ∧ main env f = { trace := describeMetrics env, outcome := .exit 0 }) ∨
    (f.showMetrics = false ∧ f.vodafoneStationPasswordFile ≠ "" ∧
      ∃ cause, env.ReadFile f.vodafoneStationPasswordFile = .inl cause ∧
        main env f =
          { trace :=
              [Event.log ("Using password file (" ++ f.vodafoneStationPasswordFile ++ ")"),
               Event.readFile f.vodafoneStationPasswordFile],
            outcome := .panic (Errorf "failed to read password file: " cause) }) ∨
    (f.showMetrics = false ∧ f.showVersion = true ∧
      ∃ pre, (∀ e ∈ pre, (∃ m, e = Event.log m) ∨ ∃ p, e = Event.readFile p) ∧
        main env f =
          { trace := pre ++
              [Event.print "vodafone-station-exporter\n", Event.print "Version: 0.0.1\n",
               Event.print "Author: @fluepke\n",
               Event.print "Prometheus Exporter for the Vodafone Station (CGA4233DE)\n"],
            outcome := .exit 0 }) ∨
    (f.showMetrics = false ∧ f.showVersion = false ∧
      ∃ pre password, (∀ e ∈ pre, (∃ m, e = Event.log m) ∨ ∃ p, e = Event.readFile p) ∧
        main env f =
          { trace := pre ++ Event.newVodafoneStation f.vodafoneStationUrl password ::
              (server.start env f ⟨NewVodafoneStation f.vodafoneStationUrl password⟩).trace,
            outcome :=
              (server.start env f
                ⟨NewVodafoneStation f.vodafoneStationUrl password⟩).outcome }) := by
  cases hm : f.showMetrics with
  | true => exact Or.inl ⟨rfl, main_showMetrics env f hm⟩
  | false =>
    by_cases hp : f.vodafoneStationPasswordFile = ""
    · rw [main_noFile env f hm hp]
      cases hv : f.showVersion with
      | true =>
        refine Or.inr (Or.inr (Or.inl ⟨rfl, rfl, [], by simp, ?_⟩))
        rw [mainFromVersion_version env f _ hv]; rfl
      | false =>
        refine Or.inr (Or.inr (Or.inr
          ⟨rfl, rfl, [], f.vodafoneStationPassword, by simp, ?_⟩))
        rw [mainFromVersion_serve env f _ hv]; rfl
    · cases hr : env.ReadFile f.vodafoneStationPasswordFile with
      | inl cause =>
        exact Or.inr (Or.inl ⟨rfl, hp, cause, rfl, main_readError env f cause hm hp hr⟩)
      | inr data =>
        rw [main_readOk env f data hm hp hr]
        cases hv : f.showVersion with
        | true =>
          refine Or.inr (Or.inr (Or.inl ⟨rfl, rfl,
            [Event.log ("Using password file (" ++ f.vodafoneStationPasswordFile ++ ")"),
            Event.readFile f.vodafoneStationPasswordFile], by simp, ?_⟩))
          rw [mainFromVersion_version env f _ hv]
        | false =>
          refine Or.inr (Or.inr (Or.inr ⟨rfl, rfl,
            [Event.log ("Using password file (" ++ f.vodafoneStationPasswordFile ++ ")"),
            Event.readFile f.vodafoneStationPasswordFile], TrimSpace data, by simp, ?_⟩))
          rw [mainFromVersion_serve env f _ hv]

/-! ## The password (claim C6) -/

/-- Claim C6: whenever `main` constructs the device client, the URL is the
value of the URL flag; if a password file is named, the file was read and the
password handed over is `strings.TrimSpace` of its content, whatever the
password flag holds; if no password file is named, the password handed over
is the value of the password flag.  The client is constructed whenever
neither mode flag is set and the file, if named, is readable.  The trimmed
value is the content without a leading and a trailing run of white space:
the content is a run of spaces, the trimmed value, a run of spaces; the
trimmed value neither starts nor ends with a space; trimming it again
changes nothing. -/
theorem password_handed_to_station (env : Env) (f : Flags) :
    (∀ url password, Event.newVodafoneStation url password ∈ (main env f).trace →
      url = f.vodafoneStationUrl ∧
      (f.vodafoneStationPasswordFile ≠ "" →
        ∃ data, env.ReadFile f.vodafoneStationPasswordFile = .inr data ∧
          password = TrimSpace data) ∧
      (f.vodafoneStationPasswordFile = "" → password = f.vodafoneStationPassword)) ∧
    (f.showMetrics = false → f.showVersion = false →
      (∀ data, env.ReadFile f.vodafoneStationPasswordFile = .inr data →
        f.vodafoneStationPasswordFile ≠ "" →
        Event.newVodafoneStation f.vodafoneStationUrl (TrimSpace data) ∈ (main env f).trace) ∧
      (f.vodafoneStationPasswordFile = "" →
        Event.newVodafoneStation f.vodafoneStationUrl f.vodafoneStationPassword ∈
          (main env f).trace)) ∧
    (∀ data : String,
      (∃ pre suf, data.data = pre ++ (TrimSpace data).data ++ suf ∧
        (∀ c ∈ pre, isSpace c = true) ∧ (∀ c ∈ suf, isSpace c = true)) ∧
      (∀ c, (TrimSpace data).data.head? = some c → isSpace c = false) ∧
      (∀ c, (TrimSpace data).data.getLast? = some c → isSpace c = false) ∧
      TrimSpace (TrimSpace data) = TrimSpace data) := by
  refine ⟨?_, ?_, ?_⟩
  · intro url password h
    obtain ⟨-, -, hurl, hpw⟩ := newVodafoneStation_mem_main env f url password h
    refine ⟨hurl, ?_, ?_⟩
    · intro hp
      rcases hpw with ⟨hp', -⟩ | ⟨-, hdata⟩
      · exact absurd hp' hp
      · exact hdata
    · intro hp
      rcases hpw with ⟨-, hpw⟩ | ⟨hp', -⟩
      · exact hpw
      · exact absurd hp hp'
  · intro hm hv
    refine ⟨?_, ?_⟩
    · intro data hr hp
      rw [main_readOk env f data hm hp hr, mainFromVersion_serve env f _ hv]
      simp
    · intro hp
      rw [main_noFile env f hm hp, mainFromVersion_serve env f _ hv]
      simp
  · intro data
    exact ⟨trimSpaceChars_split data.data, trimSpaceChars_head data.data,
      trimSpaceChars_getLast data.data, TrimSpace_idempotent data⟩

/-- Claim C6 at the example: the content of the password file is
blank, tab, `s3cret pass`, carriage return, newline; the client gets
`s3cret pass`, not the default of the password flag. -/
theorem password_handed_to_station_witness :
    Event.newVodafoneStation "https://192.168.0.1" "s3cret pass" ∈
      (main exampleEnv fileFlags).trace ∧
    Event.newVodafoneStation "https://192.168.0.1"
      "How is the default password calculated? mhmm" ∈ (main exampleEnv defaultFlags).trace :=
  ⟨((password_handed_to_station exampleEnv fileFlags).2.1 rfl rfl).1 " \ts3cret pass\r\n" rfl
      (by decide),
   ((password_handed_to_station exampleEnv defaultFlags).2.1 rfl rfl).2 rfl⟩

/-! ## Fatal configuration errors (claim C7) -/

theorem start_listen_failed (env : Env) (f : Flags) (s : server) (addr : String)
    (cause : GoError) (h : Event.listenAndServe addr ∈ (server.start env f s).trace)
    (hl : env.ListenAndServe f.listenAddress = .failed cause) :
    (server.start env f s).outcome = Outcome.returned ∧
    (server.start env f s).trace.getLast? =
      some (Event.log ("Failed to listen: " ++ cause.Error)) ∧
    (∀ e ∈ (server.start env f s).trace, e.isRequest = false) := by
  cases h1 : env.HandleFunc [] "/" with
  | some err => simp [server.start, h1] at h
  | none =>
    cases h2 : env.HandleFunc ["/"] f.metricsPath with
    | some err => simp [server.start, h1, h2] at h
    | none =>
      cases h3 : env.HandleFunc ["/", f.metricsPath] f.docsisMetricsPath with
      | some err => simp [server.start, h1, h2, h3] at h
      | none => simp [server.start, h1, h2, h3, hl, Event.isRequest]

theorem getLast_append_some {α : Type} (l1 l2 : List α) (y : α)
    (h : l2.getLast? = some y) : (l1 ++ l2).getLast? = some y := by
  rw [List.getLast?_append, h]
  rfl

/-- Claim C7: if `main` reads the password file and the read fails, the
process ends there with a panic whose value has the message
`failed to read password file: ` followed by the message of the read error,
and wraps the read error; up to then no device client was constructed, no
handler registered and the server not started.  If `start` calls
`ListenAndServe` and listening fails, the last thing the process does is the
log line `Failed to listen: ` followed by the cause; then `main` returns, and
no request was served. -/
theorem startup_errors_end_the_process (env : Env) (f : Flags) :
    (∀ cause, Event.readFile f.vodafoneStationPasswordFile ∈ (main env f).trace →
      env.ReadFile f.vodafoneStationPasswordFile = .inl cause →
      (main env f).outcome = Outcome.panic (Errorf "failed to read password file: " cause) ∧
      (Errorf "failed to read password file: " cause).Error =
        "failed to read password file: " ++ cause.Error ∧
      (Errorf "failed to read password file: " cause).Unwrap = some cause ∧
      (main env f).trace.getLast? = some (Event.readFile f.vodafoneStationPasswordFile) ∧
      (∀ url password, Event.newVodafoneStation url password ∉ (main env f).trace) ∧
      (∀ pattern hid, Event.handleFunc pattern hid ∉ (main env f).trace) ∧
      (∀ addr, Event.listenAndServe addr ∉ (main env f).trace) ∧
      (∀ e ∈ (main env f).trace, e.isRequest = false)) ∧
    (∀ cause, Event.listenAndServe f.listenAddress ∈ (main env f).trace →
      env.ListenAndServe f.listenAddress = .failed cause →
      (main env f).trace.getLast? = some (Event.log ("Failed to listen: " ++ cause.Error)) ∧
      (main env f).outcome = Outcome.returned ∧
      (∀ e ∈ (main env f).trace, e.isRequest = false)) := by
  refine ⟨?_, ?_⟩
  · intro cause hmem hr
    obtain ⟨hm, hp, -⟩ := readFile_mem_main env f _ hmem
    rw [main_readError env f cause hm hp hr]
    refine ⟨rfl, rfl, rfl, rfl, ?_, ?_, ?_, ?_⟩ <;> simp [Event.isRequest]
  · intro cause hmem hl
    rcases main_cases env f with ⟨-, hmain⟩ | ⟨-, -, c, -, hmain⟩ | ⟨-, -, pre, hpre, hmain⟩ |
      ⟨-, -, pre, password, hpre, hmain⟩
    · rw [hmain] at hmem
      exact absurd hmem (describeMetrics_not_mem env _ (by simp) (by simp))
    · rw [hmain] at hmem
      simp at hmem
    · rw [hmain] at hmem
      simp only [List.mem_append, List.mem_cons, reduceCtorEq, false_or, List.not_mem_nil,
        or_false] at hmem
      rcases hpre _ hmem with ⟨m, hm⟩ | ⟨p, hp⟩
      · cases hm
      · cases hp
    · rw [hmain] at hmem ⊢
      simp only [List.mem_append, List.mem_cons, reduceCtorEq, false_or] at hmem
      have hin : Event.listenAndServe f.listenAddress ∈
          (server.start env f ⟨NewVodafoneStation f.vodafoneStationUrl password⟩).trace := by
        rcases hmem with hmem | hmem
        · rcases hpre _ hmem with ⟨m, hm⟩ | ⟨p, hp⟩
          · cases hm
          · cases hp
        · exact hmem
      obtain ⟨ho, hlast, hreq⟩ := start_listen_failed env f _ _ cause hin hl
      refine ⟨?_, ho, ?_⟩
      · apply getLast_append_some
        rw [List.getLast?_cons, hlast]
        rfl
      · intro e he
        simp only [List.mem_append, List.mem_cons] at he
        rcases he with he | he | he
        · rcases hpre _ he with ⟨m, hm⟩ | ⟨p, hp⟩
          · rw [hm]; rfl
          · rw [hp]; rfl
        · rw [he]; rfl
        · exact hreq e he

/-- Claim C7 at the example: a password file that does not exist, and a
listen address that is refused. -/
theorem startup_errors_end_the_process_witness :
    (main exampleEnv unreadableFlags).outcome =
      Outcome.panic (Errorf "failed to read password file: "
        (.new "open /nonexistent: no such file or directory")) ∧
    (main exampleEnv refusedFlags).trace.getLast? =
      some (Event.log "Failed to listen: listen tcp :80: bind: permission denied") ∧
    (main exampleEnv refusedFlags).outcome = Outcome.returned :=
  let h1 := (startup_errors_end_the_process exampleEnv unreadableFlags).1
    (.new "open /nonexistent: no such file or directory") (by decide) rfl
  let h2 := (startup_errors_end_the_process exampleEnv refusedFlags).2
    (.new "listen tcp :80: bind: permission denied") (by decide) rfl
  ⟨h1.1, h2.1, h2.2.1⟩

/-! ## The scrape handlers (claims C4 and C5) -/

theorem Register_inr (pkg : CollectorPkg) (r r' : Registry) (c : AnyCollector)
    (h : r.Register pkg c = .inr r') : r' = { r with collectors := r.collectors ++ [c] } := by
  unfold Registry.Register at h
  simp only at h
  split at h
  · cases h
  · split at h
    · cases h
    · split at h
      · cases h
      · exact (Sum.inr.inj h).symm

theorem HandlerFor_registry (pkg : CollectorPkg) (reg : Registry) (opts : HandlerOpts)
    (dev : Device) (resp : Response) (h : HandlerFor pkg reg opts dev = .responded resp) :
    resp.registry = reg.id := by
  unfold HandlerFor at h
  simp only at h
  split at h
  · split at h
    · cases h
    · split at h
      · cases h; rfl
      · cases h; rfl
    · cases h; rfl
  · cases h; rfl

theorem registerAndServe_spec (pkg : CollectorPkg) (registry : Registry) (c : AnyCollector)
    (request : Request) (hnew : registry.collectors = []) :
    (registerAndServe pkg registry c request).registry = registry ∧
    (registerAndServe pkg registry c request).collector = c ∧
    (((registerAndServe pkg registry c request).registered = [c] ∧
        (registerAndServe pkg registry c request).result =
          HandlerFor pkg { id := registry.id, collectors := [c] } handlerOpts request.device) ∨
      ((registerAndServe pkg registry c request).registered = [] ∧
        ∃ err, (registerAndServe pkg registry c request).result = .panicked err)) := by
  unfold registerAndServe Registry.MustRegister
  cases hreg : registry.Register pkg c with
  | inl err => exact ⟨rfl, rfl, Or.inr ⟨hnew, err, rfl⟩⟩
  | inr registry' =>
    have h' := Register_inr pkg registry registry' c hreg
    rw [hnew] at h'
    subst h'
    exact ⟨rfl, rfl, Or.inl ⟨rfl, rfl⟩⟩

theorem HandlerFor_responds (pkg : CollectorPkg) (reg : Registry) (dev : Device) :
    ∃ resp, HandlerFor pkg reg handlerOpts dev = .responded resp := by
  unfold HandlerFor handlerOpts
  simp only
  split
  · split
    · exact ⟨_, rfl⟩
    · exact ⟨_, rfl⟩
  · exact ⟨_, rfl⟩

theorem registerAndServe_isolated (pkg : CollectorPkg) (s : server) (registry : Registry)
    (c : AnyCollector) (request : Request) (hnew : registry.collectors = [])
    (hc : c = .general { Station := some s.station } ∨
      c = .docsis { Station := some s.station }) :
    isolatedRun s (registerAndServe pkg registry c request) := by
  obtain ⟨h1, h2, h3⟩ := registerAndServe_spec pkg registry c request hnew
  refine ⟨by rw [h1]; exact hnew, by rw [h2]; exact hc, ?_⟩
  rcases h3 with ⟨hreg, hres⟩ | ⟨hreg, err, hres⟩
  · obtain ⟨resp, hresp⟩ := HandlerFor_responds pkg
      { id := registry.id, collectors := [c] } request.device
    rw [hres, hresp, hreg, h2, h1]
    exact ⟨rfl, HandlerFor_registry pkg { id := registry.id, collectors := [c] } _ _ _ hresp⟩
  · rw [hres, hreg]

theorem dispatch_spec (pkg : CollectorPkg) (f : Flags) (mux : List (String × HandlerId))
    (s : server) (h : Heap) (request : Request) :
    (dispatch pkg f mux s h request).2.1 = s ∧
    ((handlerRuns [(dispatch pkg f mux s h request).1] = [] ∧
        (dispatch pkg f mux s h request).2.2 = h) ∨
      (∃ run, handlerRuns [(dispatch pkg f mux s h request).1] = [run] ∧
        run.registry.id = h.registries ∧
        (dispatch pkg f mux s h request).2.2 = { registries := h.registries + 1 } ∧
        isolatedRun s run)) := by
  unfold dispatch
  split
  · exact ⟨rfl, Or.inl ⟨rfl, rfl⟩⟩
  · exact ⟨rfl, Or.inl ⟨rfl, rfl⟩⟩
  · refine ⟨rfl, Or.inr ⟨_, rfl, ?_, rfl, ?_⟩⟩
    · exact congrArg Registry.id (registerAndServe_spec pkg (NewRegistry h).1 _ request rfl).1
    · exact registerAndServe_isolated pkg s (NewRegistry h).1 _ request rfl (Or.inl rfl)
  · refine ⟨rfl, Or.inr ⟨_, rfl, ?_, rfl, ?_⟩⟩
    · exact congrArg Registry.id (registerAndServe_spec pkg (NewRegistry h).1 _ request rfl).1
    · exact registerAndServe_isolated pkg s (NewRegistry h).1 _ request rfl (Or.inr rfl)

theorem handlerRuns_cons (e : Event) (es : List Event) :
    handlerRuns (e :: es) = handlerRuns [e] ++ handlerRuns es := by
  cases e <;> rfl

theorem serveAll_runs (pkg : CollectorPkg) (f : Flags) (mux : List (String × HandlerId))
    (reqs : List Request) : ∀ (s : server) (h : Heap),
    (serveAll pkg f mux s h reqs).2.1 = s ∧
    h.registries ≤ (serveAll pkg f mux s h reqs).2.2.registries ∧
    (∀ run ∈ handlerRuns (serveAll pkg f mux s h reqs).1,
      h.registries ≤ run.registry.id ∧
      run.registry.id < (serveAll pkg f mux s h reqs).2.2.registries ∧ isolatedRun s run) ∧
    ((handlerRuns (serveAll pkg f mux s h reqs).1).map (fun run => run.registry.id)).Nodup := by
  induction reqs with
  | nil => intro s h; simp [serveAll, handlerRuns]
  | cons r rest ih =>
    intro s h
    obtain ⟨hs, hd⟩ := dispatch_spec pkg f mux s h r
    obtain ⟨is, ihle, iruns, inodup⟩ :=
      ih (dispatch pkg f mux s h r).2.1 (dispatch pkg f mux s h r).2.2
    rw [hs] at is iruns ihle inodup
    simp only [serveAll, hs]
    rw [handlerRuns_cons]
    rcases hd with ⟨hnone, hheap⟩ | ⟨run, hone, hid, hheap, hiso⟩
    · rw [hheap] at is iruns ihle inodup ⊢
      rw [hnone]
      exact ⟨is, ihle, iruns, inodup⟩
    · rw [hone]
      rw [hheap] at is iruns ihle inodup ⊢
      simp only at ihle
      refine ⟨is, by omega, ?_, ?_⟩
      · intro x hx
        simp only [List.singleton_append, List.mem_cons] at hx
        rcases hx with hx | hx
        · rw [hx]
          exact ⟨by omega, by omega, hiso⟩
        · obtain ⟨h1, h2, h3⟩ := iruns x hx
          simp only at h1
          exact ⟨by omega, h2, h3⟩
      · simp only [List.singleton_append, List.map_cons, List.nodup_cons, List.mem_map,
          not_exists, not_and]
        refine ⟨?_, inodup⟩
        intro x hx heq
        have := (iruns x hx).1
        simp only at this
        omega

theorem dispatch_served (pkg : CollectorPkg) (f : Flags) (mux : List (String × HandlerId))
    (s : server) (h : Heap) (request : Request) (hid : HandlerId) (run : HandlerRun)
    (he : (dispatch pkg f mux s h request).1 = Event.served hid run) :
    (hid = .handleMetricsRequest ∧ run.collector = .general { Station := some s.station }) ∨
    (hid = .handleDocsisMetricsRequest ∧
      run.collector = .docsis { Station := some s.station }) := by
  unfold dispatch at he
  split at he
  · cases he
  · cases he
  · simp only [Event.served.injEq] at he
    obtain ⟨h1, h2⟩ := he
    refine Or.inl ⟨h1.symm, ?_⟩
    rw [← h2]
    exact (registerAndServe_spec pkg (NewRegistry h).1 _ request rfl).2.1
  · simp only [Event.served.injEq] at he
    obtain ⟨h1, h2⟩ := he
    refine Or.inr ⟨h1.symm, ?_⟩
    rw [← h2]
    exact (registerAndServe_spec pkg (NewRegistry h).1 _ request rfl).2.1

theorem serveAll_served (pkg : CollectorPkg) (f : Flags) (mux : List (String × HandlerId))
    (reqs : List Request) (hid : HandlerId) (run : HandlerRun) : ∀ (s : server) (h : Heap),
    Event.served hid run ∈ (serveAll pkg f mux s h reqs).1 →
    (hid = .handleMetricsRequest ∧ run.collector = .general { Station := some s.station }) ∨
    (hid = .handleDocsisMetricsRequest ∧
      run.collector = .docsis { Station := some s.station }) := by
  induction reqs with
  | nil => intro s h he; simp [serveAll] at he
  | cons r rest ih =>
    intro s h he
    simp only [serveAll, List.mem_cons] at he
    rcases he with he | he
    · exact dispatch_served pkg f mux s h r hid run he.symm
    · have hs := (dispatch_spec pkg f mux s h r).1
      rw [hs] at he
      exact ih s _ he

theorem start_served (env : Env) (f : Flags) (s : server) (hid : HandlerId) (run : HandlerRun)
    (he : Event.served hid run ∈ (server.start env f s).trace) :
    (hid = .handleMetricsRequest ∧ run.collector = .general { Station := some s.station }) ∨
    (hid = .handleDocsisMetricsRequest ∧
      run.collector = .docsis { Station := some s.station }) := by
  unfold server.start at he
  split at he
  · simp at he
  · split at he
    · simp at he
    · split at he
      · simp at he
      · split at he
        · simp at he
        · simp only [List.mem_append, List.mem_cons, reduceCtorEq, false_or, List.not_mem_nil,
            or_false] at he
          exact serveAll_served _ _ _ _ _ _ _ _ he

theorem start_handleFunc (env : Env) (f : Flags) (s : server) (pattern : String)
    (hid : HandlerId) (he : Event.handleFunc pattern hid ∈ (server.start env f s).trace) :
    (hid = .index ∧ pattern = "/") ∨
    (hid = .handleMetricsRequest ∧ pattern = f.metricsPath) ∨
    (hid = .handleDocsisMetricsRequest ∧ pattern = f.docsisMetricsPath) := by
  have hreq : ∀ reqs, Event.handleFunc pattern hid ∉ (serveAll env.pkg f
      [("/", HandlerId.index), (f.metricsPath, .handleMetricsRequest),
        (f.docsisMetricsPath, .handleDocsisMetricsRequest)] s { registries := 0 } reqs).1 := by
    intro reqs hx
    have := serveAll_isRequest _ _ _ reqs _ _ _ hx
    cases this
  unfold server.start at he
  split at he
  · simp at he; tauto
  · split at he
    · simp at he; tauto
    · split at he
      · simp at he; tauto
      · split at he
        · simp at he; tauto
        · simp only [List.mem_append, List.mem_cons, reduceCtorEq, false_or, List.not_mem_nil,
            or_false, Event.handleFunc.injEq, hreq] at he
          tauto

theorem handlerRuns_append (xs ys : List Event) :
    handlerRuns (xs ++ ys) = handlerRuns xs ++ handlerRuns ys := by
  induction xs with
  | nil => rfl
  | cons e es ih =>
    rw [List.cons_append, handlerRuns_cons, ih, handlerRuns_cons e es, List.append_assoc]

theorem handlerRuns_eq_nil (es : List Event) (h : ∀ e ∈ es, e.isRequest = false) :
    handlerRuns es = [] := by
  induction es with
  | nil => rfl
  | cons e rest ih =>
    have he := h e (List.mem_cons_self _ _)
    have hrest := ih (fun x hx => h x (List.mem_cons_of_mem _ hx))
    cases e <;> simp_all [handlerRuns, Event.isRequest]

theorem start_handlerRuns (env : Env) (f : Flags) (s : server) :
    handlerRuns (server.start env f s).trace = [] ∨
    ∃ reqs, handlerRuns (server.start env f s).trace =
      handlerRuns (serveAll env.pkg f
        [("/", HandlerId.index), (f.metricsPath, .handleMetricsRequest),
          (f.docsisMetricsPath, .handleDocsisMetricsRequest)] s { registries := 0 } reqs).1 := by
  unfold server.start
  split
  · exact Or.inl rfl
  · split
    · exact Or.inl rfl
    · split
      · exact Or.inl rfl
      · split
        · exact Or.inl rfl
        · rename_i reqs err _
          refine Or.inr ⟨reqs, ?_⟩
          simp only [handlerRuns_append]
          simp [handlerRuns]

theorem main_handlerRuns (env : Env) (f : Flags) :
    handlerRuns (main env f).trace = [] ∨
    ∃ password reqs, handlerRuns (main env f).trace =
      handlerRuns (serveAll env.pkg f
        [("/", HandlerId.index), (f.metricsPath, .handleMetricsRequest),
          (f.docsisMetricsPath, .handleDocsisMetricsRequest)]
        ⟨NewVodafoneStation f.vodafoneStationUrl password⟩ { registries := 0 } reqs).1 := by
  have hpre : ∀ pre : List Event,
      (∀ e ∈ pre, (∃ m, e = Event.log m) ∨ ∃ p, e = Event.readFile p) →
      handlerRuns pre = [] := by
    intro pre h
    apply handlerRuns_eq_nil
    intro e he
    rcases h e he with ⟨m, hm⟩ | ⟨p, hp⟩
    · rw [hm]; rfl
    · rw [hp]; rfl
  rcases main_cases env f with ⟨-, hmain⟩ | ⟨-, -, c, -, hmain⟩ | ⟨-, -, pre, hp, hmain⟩ |
    ⟨-, -, pre, password, hp, hmain⟩
  · left
    rw [hmain]
    apply handlerRuns_eq_nil
    intro e he
    rcases describeMetrics_events env e he with ⟨t, ht⟩ | hd
    · rw [ht]; rfl
    · rw [hd]; rfl
  · left; rw [hmain]; rfl
  · left
    rw [hmain]
    simp only [handlerRuns_append, hpre pre hp]
    rfl
  · rw [hmain]
    simp only [handlerRuns_append, hpre pre hp, List.nil_append]
    rw [handlerRuns_cons]
    rcases start_handlerRuns env f ⟨NewVodafoneStation f.vodafoneStationUrl password⟩ with
      h | ⟨reqs, h⟩
    · left; rw [h]; rfl
    · right
      exact ⟨password, reqs, by rw [h]; rfl⟩

/-- Claim C4: one run of either handler creates a registry that is new (the
next allocation) and empty, builds its collector from the station of the
server alone, registers that collector and nothing else, and answers with
what `HandlerFor` gathers from the registry holding exactly that collector
(or ends in the panic of `MustRegister`, with nothing registered).  The
handler returns the server value as it got it.  Over any sequence of requests
the server value at the end is the one at the start, the registries of the
runs are pairwise different, and every run stands alone in this way; the
same holds for the handler runs of every run of `main`. -/
theorem handlers_build_their_own_registry (env : Env) (f : Flags)
    (mux : List (String × HandlerId)) (s : server) (h : Heap) (request : Request)
    (reqs : List Request) :
    ((s.handleMetricsRequest env.pkg h request).1.registry =
        { id := h.registries, collectors := [] } ∧
      (s.handleMetricsRequest env.pkg h request).1.collector =
        .general { Station := some s.station } ∧
      (((s.handleMetricsRequest env.pkg h request).1.registered =
            [.general { Station := some s.station }] ∧
          (s.handleMetricsRequest env.pkg h request).1.result =
            HandlerFor env.pkg
              { id := h.registries, collectors := [.general { Station := some s.station }] }
              handlerOpts request.device) ∨
        ((s.handleMetricsRequest env.pkg h request).1.registered = [] ∧
          ∃ err, (s.handleMetricsRequest env.pkg h request).1.result = .panicked err)) ∧
      (s.handleMetricsRequest env.pkg h request).2.1 = s ∧
      (s.handleMetricsRequest env.pkg h request).2.2 = { registries := h.registries + 1 }) ∧
    ((s.handleDocsisMetricsRequest env.pkg h request).1.registry =
        { id := h.registries, collectors := [] } ∧
      (s.handleDocsisMetricsRequest env.pkg h request).1.collector =
        .docsis { Station := some s.station } ∧
      (((s.handleDocsisMetricsRequest env.pkg h request).1.registered =
            [.docsis { Station := some s.station }] ∧
          (s.handleDocsisMetricsRequest env.pkg h request).1.result =
            HandlerFor env.pkg
              { id := h.registries, collectors := [.docsis { Station := some s.station }] }
              handlerOpts request.device) ∨
        ((s.handleDocsisMetricsRequest env.pkg h request).1.registered = [] ∧
          ∃ err, (s.handleDocsisMetricsRequest env.pkg h request).1.result = .panicked err)) ∧
      (s.handleDocsisMetricsRequest env.pkg h request).2.1 = s ∧
      (s.handleDocsisMetricsRequest env.pkg h request).2.2 =
        { registries := h.registries + 1 }) ∧
    ((serveAll env.pkg f mux s h reqs).2.1 = s ∧
      ((handlerRuns (serveAll env.pkg f mux s h reqs).1).map
        (fun run => run.registry.id)).Nodup ∧
      ∀ run ∈ handlerRuns (serveAll env.pkg f mux s h reqs).1,
        h.registries ≤ run.registry.id ∧ isolatedRun s run) ∧
    (((handlerRuns (main env f).trace).map (fun run => run.registry.id)).Nodup ∧
      ∀ run ∈ handlerRuns (main env f).trace,
        run.registry.collectors = [] ∧
        (run.registered = [run.collector] ∨ run.registered = []) ∧
        ∀ resp, run.result = .responded resp →
          run.registered = [run.collector] ∧ resp.registry = run.registry.id) := by
  refine ⟨?_, ?_, ?_, ?_⟩
  · obtain ⟨h1, h2, h3⟩ := registerAndServe_spec env.pkg (NewRegistry h).1
      (.general { Station := some s.station }) request rfl
    exact ⟨h1, h2, h3, rfl, rfl⟩
  · obtain ⟨h1, h2, h3⟩ := registerAndServe_spec env.pkg (NewRegistry h).1
      (.docsis { Station := some s.station }) request rfl
    exact ⟨h1, h2, h3, rfl, rfl⟩
  · obtain ⟨h1, -, h3, h4⟩ := serveAll_runs env.pkg f mux reqs s h
    exact ⟨h1, h4, fun run hrun => ⟨(h3 run hrun).1, (h3 run hrun).2.2⟩⟩
  · rcases main_handlerRuns env f with hnil | ⟨password, rs, hruns⟩
    · rw [hnil]
      simp
    · rw [hruns]
      obtain ⟨-, -, h3, h4⟩ := serveAll_runs env.pkg f
        [("/", HandlerId.index), (f.metricsPath, .handleMetricsRequest),
          (f.docsisMetricsPath, .handleDocsisMetricsRequest)] rs
        ⟨NewVodafoneStation f.vodafoneStationUrl password⟩ { registries := 0 }
      refine ⟨h4, ?_⟩
      intro run hrun
      obtain ⟨-, -, hnew, -, hres⟩ := h3 run hrun
      refine ⟨hnew, ?_, ?_⟩
      · cases hr : run.result with
        | panicked err => rw [hr] at hres; exact Or.inr hres
        | responded resp => rw [hr] at hres; exact Or.inl hres.1
      · intro resp hr
        rw [hr] at hres
        exact hres

/-- Claim C4 at the example: the run of `main` with the default flags serves
three scrapes, from the registries 0, 1 and 2. -/
theorem handlers_build_their_own_registry_witness :
    (handlerRuns (main exampleEnv defaultFlags).trace).map (fun run => run.registry.id) =
      [0, 1, 2] ∧
    ((handlerRuns (main exampleEnv defaultFlags).trace).map
      (fun run => run.registry.id)).Nodup :=
  ⟨by decide,
    (handlers_build_their_own_registry exampleEnv defaultFlags [] ⟨NewVodafoneStation "" ""⟩
      { registries := 0 } { pattern := "/metrics", device := exampleDevice } []).2.2.2.1⟩

theorem lookup_metricsPath (f : Flags) (h : f.metricsPath ≠ "/") :
    lookupHandler [("/", HandlerId.index), (f.metricsPath, .handleMetricsRequest),
      (f.docsisMetricsPath, .handleDocsisMetricsRequest)] f.metricsPath =
      some .handleMetricsRequest := by
  have h' : ("/" == f.metricsPath) = false := by simpa using fun e => h e.symm
  simp [lookupHandler, List.find?, h']

theorem lookup_docsisMetricsPath (f : Flags) (h : f.docsisMetricsPath ≠ "/")
    (hne : f.docsisMetricsPath ≠ f.metricsPath) :
    lookupHandler [("/", HandlerId.index), (f.metricsPath, .handleMetricsRequest),
      (f.docsisMetricsPath, .handleDocsisMetricsRequest)] f.docsisMetricsPath =
      some .handleDocsisMetricsRequest := by
  have h' : ("/" == f.docsisMetricsPath) = false := by simpa using fun e => h e.symm
  have h'' : (f.metricsPath == f.docsisMetricsPath) = false := by
    simpa using fun e => hne e.symm
  simp [lookupHandler, List.find?, h', h'']

theorem serveAll_serves_general (pkg : CollectorPkg) (f : Flags)
    (mux : List (String × HandlerId)) (reqs : List Request) : ∀ (s : server) (h : Heap),
    ∀ r ∈ reqs, lookupHandler mux r.pattern = some .handleMetricsRequest →
    ∃ run, Event.served .handleMetricsRequest run ∈ (serveAll pkg f mux s h reqs).1 ∧
      run.collector = .general { Station := some s.station } := by
  induction reqs with
  | nil => intro s h r hr; cases hr
  | cons q rest ih =>
    intro s h r hr hl
    rcases List.mem_cons.mp hr with hq | hq
    · subst hq
      refine ⟨(s.handleMetricsRequest pkg h r).1, ?_, ?_⟩
      · simp only [serveAll, List.mem_cons]
        left
        simp only [dispatch, hl]
      · exact (registerAndServe_spec pkg (NewRegistry h).1 _ r rfl).2.1
    · obtain ⟨run, hmem, hc⟩ := ih s (dispatch pkg f mux s h q).2.2 r hq hl
      refine ⟨run, ?_, hc⟩
      simp only [serveAll, List.mem_cons]
      right
      rw [(dispatch_spec pkg f mux s h q).1]
      exact hmem

theorem serveAll_serves_docsis (pkg : CollectorPkg) (f : Flags)
    (mux : List (String × HandlerId)) (reqs : List Request) : ∀ (s : server) (h : Heap),
    ∀ r ∈ reqs, lookupHandler mux r.pattern = some .handleDocsisMetricsRequest →
    ∃ run, Event.served .handleDocsisMetricsRequest run ∈ (serveAll pkg f mux s h reqs).1 ∧
      run.collector = .docsis { Station := some s.station } := by
  induction reqs with
  | nil => intro s h r hr; cases hr
  | cons q rest ih =>
    intro s h r hr hl
    rcases List.mem_cons.mp hr with hq | hq
    · subst hq
      refine ⟨(s.handleDocsisMetricsRequest pkg h r).1, ?_, ?_⟩
      · simp only [serveAll, List.mem_cons]
        left
        simp only [dispatch, hl]
      · exact (registerAndServe_spec pkg (NewRegistry h).1 _ r rfl).2.1
    · obtain ⟨run, hmem, hc⟩ := ih s (dispatch pkg f mux s h q).2.2 r hq hl
      refine ⟨run, ?_, hc⟩
      simp only [serveAll, List.mem_cons]
      right
      rw [(dispatch_spec pkg f mux s h q).1]
      exact hmem

theorem start_accepted (env : Env) (f : Flags) (s : server)
    (h1 : env.HandleFunc [] "/" = none) (h2 : env.HandleFunc ["/"] f.metricsPath = none)
    (h3 : env.HandleFunc ["/", f.metricsPath] f.docsisMetricsPath = none) :
    Event.handleFunc "/" .index ∈ (server.start env f s).trace ∧
    Event.handleFunc f.metricsPath .handleMetricsRequest ∈ (server.start env f s).trace ∧
    Event.handleFunc f.docsisMetricsPath .handleDocsisMetricsRequest ∈
      (server.start env f s).trace ∧
    Event.listenAndServe f.listenAddress ∈ (server.start env f s).trace ∧
    (∀ reqs err, env.ListenAndServe f.listenAddress = .served reqs err →
      ∀ e ∈ (serveAll env.pkg f
        [("/", HandlerId.index), (f.metricsPath, .handleMetricsRequest),
          (f.docsisMetricsPath, .handleDocsisMetricsRequest)] s { registries := 0 } reqs).1,
        e ∈ (server.start env f s).trace) := by
  cases hl : env.ListenAndServe f.listenAddress with
  | failed err => simp [server.start, h1, h2, h3, hl]
  | served reqs err =>
    refine ⟨?_, ?_, ?_, ?_, ?_⟩
    · simp [server.start, h1, h2, h3, hl]
    · simp [server.start, h1, h2, h3, hl]
    · simp [server.start, h1, h2, h3, hl]
    · simp [server.start, h1, h2, h3, hl]
    · intro reqs' err' heq e he
      cases heq
      simp only [server.start, h1, h2, h3, hl, List.mem_append]
      exact Or.inl (Or.inr he)

/-- Claim C5: the pattern of the general metrics path is registered with
`handleMetricsRequest`, whose runs use a `Collector`, and the pattern of the
DOCSIS metrics path with `handleDocsisMetricsRequest`, whose runs use a
`DocsisCollector`.  In a run of `main` the device client is constructed at
most once, from the URL flag and the password; the `Station` of the collector
of every handler run is that client; and serving requests leaves the server
value, the station that is its only field, as it was.  When neither mode flag
is set and the password file, if named, is readable, the client is
constructed exactly once, with the password of the flag or of the file; when
the multiplexer accepts the three patterns, both metrics patterns are
registered with their handlers, `ListenAndServe` is called, and every request
for the general path is handled by `handleMetricsRequest` with a `Collector`
and every request for the DOCSIS path by `handleDocsisMetricsRequest` with a
`DocsisCollector`, each holding that one client. -/
theorem both_paths_share_the_station (env : Env) (f : Flags) :
    ∃ password,
      (∀ url p, Event.newVodafoneStation url p ∈ (main env f).trace →
        url = f.vodafoneStationUrl ∧ p = password) ∧
      (main env f).trace.count (Event.newVodafoneStation f.vodafoneStationUrl password) ≤ 1 ∧
      (∀ hid run, Event.served hid run ∈ (main env f).trace →
        Event.newVodafoneStation f.vodafoneStationUrl password ∈ (main env f).trace ∧
        ((hid = .handleMetricsRequest ∧
            run.collector =
              .general { Station := some (NewVodafoneStation f.vodafoneStationUrl password) }) ∨
          (hid = .handleDocsisMetricsRequest ∧
            run.collector =
              .docsis
                { Station := some (NewVodafoneStation f.vodafoneStationUrl password) }))) ∧
      (∀ pattern hid, Event.handleFunc pattern hid ∈ (main env f).trace →
        (hid = .index ∧ pattern = "/") ∨
        (hid = .handleMetricsRequest ∧ pattern = f.metricsPath) ∨
        (hid = .handleDocsisMetricsRequest ∧ pattern = f.docsisMetricsPath)) ∧
      (∀ mux s h reqs, (serveAll env.pkg f mux s h reqs).2.1 = s) ∧
      (∀ s h request, (server.handleMetricsRequest env.pkg s h request).2.1 = s ∧
        (server.handleDocsisMetricsRequest env.pkg s h request).2.1 = s) ∧
      (f.showMetrics = false → f.showVersion = false →
        (f.vodafoneStationPasswordFile = "" ∨
          ∃ data, env.ReadFile f.vodafoneStationPasswordFile = .inr data) →
        (main env f).trace.count
          (Event.newVodafoneStation f.vodafoneStationUrl password) = 1 ∧
        (f.vodafoneStationPasswordFile = "" → password = f.vodafoneStationPassword) ∧
        (∀ data, f.vodafoneStationPasswordFile ≠ "" →
          env.ReadFile f.vodafoneStationPasswordFile = .inr data →
          password = TrimSpace data) ∧
        (env.HandleFunc [] "/" = none → env.HandleFunc ["/"] f.metricsPath = none →
          env.HandleFunc ["/", f.metricsPath] f.docsisMetricsPath = none →
          Event.handleFunc f.metricsPath .handleMetricsRequest ∈ (main env f).trace ∧
          Event.handleFunc f.docsisMetricsPath .handleDocsisMetricsRequest ∈
            (main env f).trace ∧
          Event.listenAndServe f.listenAddress ∈ (main env f).trace ∧
          ∀ reqs err, env.ListenAndServe f.listenAddress = .served reqs err →
            ∀ r ∈ reqs,
              (f.metricsPath ≠ "/" → r.pattern = f.metricsPath →
                ∃ run, Event.served .handleMetricsRequest run ∈ (main env f).trace ∧
                  run.collector =
                    .general
                      { Station :=
                          some (NewVodafoneStation f.vodafoneStationUrl password) }) ∧
              (f.docsisMetricsPath ≠ "/" → f.docsisMetricsPath ≠ f.metricsPath →
                r.pattern = f.docsisMetricsPath →
                ∃ run, Event.served .handleDocsisMetricsRequest run ∈ (main env f).trace ∧
                  run.collector =
                    .docsis
                      { Station :=
                          some (NewVodafoneStation f.vodafoneStationUrl password) }))) := by
  have hserve : ∀ mux s h reqs, (serveAll env.pkg f mux s h reqs).2.1 = s :=
    fun mux s h reqs => (serveAll_runs env.pkg f mux reqs s h).1
  have hlogread : ∀ (pre : List Event) (e : Event),
      (∀ x ∈ pre, (∃ m, x = Event.log m) ∨ ∃ p, x = Event.readFile p) →
      (∀ m, e ≠ Event.log m) → (∀ p, e ≠ Event.readFile p) → e ∉ pre := by
    intro pre e hpre h1 h2 hmem
    rcases hpre e hmem with ⟨m, hm⟩ | ⟨p, hp⟩
    · exact h1 m hm
    · exact h2 p hp
  rcases main_cases env f with ⟨hm1, hmain⟩ | ⟨-, hp2, c, hr2, hmain⟩ |
    ⟨-, hv3, pre, hp, hmain⟩ | ⟨-, -, pre, password, hp, hmain⟩
  · refine ⟨"", ?_, ?_, ?_, ?_, hserve, fun _ _ _ => ⟨rfl, rfl⟩,
      fun hm _ _ => by rw [hm1] at hm; cases hm⟩
    · intro url p hmem
      rw [hmain] at hmem
      exact absurd hmem (describeMetrics_not_mem env _ (by simp) (by simp))
    · rw [hmain, List.count_eq_zero_of_not_mem
        (describeMetrics_not_mem env _ (by simp) (by simp))]
      exact Nat.zero_le 1
    · intro hid run hmem
      rw [hmain] at hmem
      exact absurd hmem (describeMetrics_not_mem env _ (by simp) (by simp))
    · intro pattern hid hmem
      rw [hmain] at hmem
      exact absurd hmem (describeMetrics_not_mem env _ (by simp) (by simp))
  · have hno : ¬ (f.vodafoneStationPasswordFile = "" ∨
        ∃ data, env.ReadFile f.vodafoneStationPasswordFile = .inr data) := by
      rintro (h | ⟨d, hd⟩)
      · exact hp2 h
      · rw [hr2] at hd; cases hd
    rw [hmain]
    refine ⟨"", ?_, ?_, ?_, ?_, hserve, fun _ _ _ => ⟨rfl, rfl⟩,
      fun _ _ hfile => absurd hfile hno⟩ <;> simp
  · rw [hmain]
    refine ⟨"", ?_, ?_, ?_, ?_, hserve, fun _ _ _ => ⟨rfl, rfl⟩,
      fun _ hv _ => by rw [hv3] at hv; cases hv⟩
    · intro url p hmem
      simp only [List.mem_append, List.mem_cons, reduceCtorEq, false_or, List.not_mem_nil,
        or_false] at hmem
      exact absurd hmem (hlogread pre _ hp (by simp) (by simp))
    · rw [List.count_eq_zero_of_not_mem]
      · exact Nat.zero_le 1
      · simp only [List.mem_append, List.mem_cons, reduceCtorEq, false_or, List.not_mem_nil,
          or_false]
        exact hlogread pre _ hp (by simp) (by simp)
    · intro hid run hmem
      simp only [List.mem_append, List.mem_cons, reduceCtorEq, false_or, List.not_mem_nil,
        or_false] at hmem
      exact absurd hmem (hlogread pre _ hp (by simp) (by simp))
    · intro pattern hid hmem
      simp only [List.mem_append, List.mem_cons, reduceCtorEq, false_or, List.not_mem_nil,
        or_false] at hmem
      exact absurd hmem (hlogread pre _ hp (by simp) (by simp))
  · have hin : Event.newVodafoneStation f.vodafoneStationUrl password ∈ (main env f).trace := by
      rw [hmain]; simp
    have hpin := (newVodafoneStation_mem_main env f _ _ hin).2.2.2
    have hup : ∀ e : Event,
        e ∈ (server.start env f ⟨NewVodafoneStation f.vodafoneStationUrl password⟩).trace →
        e ∈ pre ++ Event.newVodafoneStation f.vodafoneStationUrl password ::
          (server.start env f ⟨NewVodafoneStation f.vodafoneStationUrl password⟩).trace :=
      fun e he => List.mem_append_right _ (List.mem_cons_of_mem _ he)
    rw [hmain]
    refine ⟨password, ?_, ?_, ?_, ?_, hserve, fun _ _ _ => ⟨rfl, rfl⟩, ?_⟩
    · intro url p hmem
      simp only [List.mem_append, List.mem_cons, Event.newVodafoneStation.injEq] at hmem
      rcases hmem with hmem | hmem | hmem
      · exact absurd hmem (hlogread pre _ hp (by simp) (by simp))
      · exact hmem
      · exact absurd hmem (start_not_mem env f _ _ rfl)
    · rw [List.count_append, List.count_cons_self,
        List.count_eq_zero_of_not_mem (hlogread pre _ hp (by simp) (by simp)),
        List.count_eq_zero_of_not_mem (start_not_mem env f
          ⟨NewVodafoneStation f.vodafoneStationUrl password⟩
          (Event.newVodafoneStation f.vodafoneStationUrl password) rfl)]
    · intro hid run hmem
      simp only [List.mem_append, List.mem_cons, reduceCtorEq, false_or] at hmem
      refine ⟨by simp, ?_⟩
      rcases hmem with hmem | hmem
      · exact absurd hmem (hlogread pre _ hp (by simp) (by simp))
      · exact start_served env f _ hid run hmem
    · intro pattern hid hmem
      simp only [List.mem_append, List.mem_cons, reduceCtorEq, false_or] at hmem
      rcases hmem with hmem | hmem
      · exact absurd hmem (hlogread pre _ hp (by simp) (by simp))
      · exact start_handleFunc env f _ pattern hid hmem
    · intro _ _ _
      refine ⟨?_, ?_, ?_, ?_⟩
      · rw [List.count_append, List.count_cons_self,
          List.count_eq_zero_of_not_mem (hlogread pre _ hp (by simp) (by simp)),
          List.count_eq_zero_of_not_mem (start_not_mem env f
            ⟨NewVodafoneStation f.vodafoneStationUrl password⟩
            (Event.newVodafoneStation f.vodafoneStationUrl password) rfl)]
      · intro hp0
        rcases hpin with ⟨-, hpw⟩ | ⟨hne, -⟩
        · exact hpw
        · exact absurd hp0 hne
      · intro data hne hr
        rcases hpin with ⟨he, -⟩ | ⟨-, d, hd, hpw⟩
        · exact absurd he hne
        · rw [hr] at hd
          cases hd
          exact hpw
      · intro h1 h2 h3
        obtain ⟨-, a1, a2, a3, a4⟩ := start_accepted env f
          ⟨NewVodafoneStation f.vodafoneStationUrl password⟩ h1 h2 h3
        refine ⟨hup _ a1, hup _ a2, hup _ a3, ?_⟩
        intro reqs err hl r hr
        refine ⟨?_, ?_⟩
        · intro hne hpat
          obtain ⟨run, hmem, hc⟩ := serveAll_serves_general env.pkg f _ reqs
            ⟨NewVodafoneStation f.vodafoneStationUrl password⟩ { registries := 0 } r hr
            (by rw [hpat]; exact lookup_metricsPath f hne)
          exact ⟨run, hup _ (a4 reqs err hl _ hmem), hc⟩
        · intro hne hne' hpat
          obtain ⟨run, hmem, hc⟩ := serveAll_serves_docsis env.pkg f _ reqs
            ⟨NewVodafoneStation f.vodafoneStationUrl password⟩ { registries := 0 } r hr
            (by rw [hpat]; exact lookup_docsisMetricsPath f hne hne')
          exact ⟨run, hup _ (a4 reqs err hl _ hmem), hc⟩

/-- Claim C5 at the example: with the default flags the client is constructed
exactly once, both metrics patterns are registered with their handlers, and
the scrape of the general path is handled with a `Collector` and the scrape of
the DOCSIS path with a `DocsisCollector` that hold that client. -/
theorem both_paths_share_the_station_witness :
    (main exampleEnv defaultFlags).trace.count
      (Event.newVodafoneStation "https://192.168.0.1"
        "How is the default password calculated? mhmm") = 1 ∧
    Event.handleFunc "/metrics" .handleMetricsRequest ∈ (main exampleEnv defaultFlags).trace ∧
    Event.handleFunc "/docsis/metrics" .handleDocsisMetricsRequest ∈
      (main exampleEnv defaultFlags).trace ∧
    (∃ run, Event.served .handleMetricsRequest run ∈ (main exampleEnv defaultFlags).trace ∧
      run.collector =
        .general
          { Station := some (NewVodafoneStation "https://192.168.0.1"
              "How is the default password calculated? mhmm") }) ∧
    (∃ run,
      Event.served .handleDocsisMetricsRequest run ∈ (main exampleEnv defaultFlags).trace ∧
      run.collector =
        .docsis
          { Station := some (NewVodafoneStation "https://192.168.0.1"
              "How is the default password calculated? mhmm") }) := by
  obtain ⟨pw, -, -, -, -, -, -, hpos⟩ := both_paths_share_the_station exampleEnv defaultFlags
  obtain ⟨hcount, hflag, -, hreg⟩ := hpos rfl rfl (Or.inl rfl)
  have hpw : pw = "How is the default password calculated? mhmm" := hflag rfl
  subst hpw
  obtain ⟨r1, r2, -, hserved⟩ := hreg rfl rfl rfl
  refine ⟨hcount, r1, r2, ?_, ?_⟩
  · exact (hserved _ _ rfl { pattern := "/metrics", device := exampleDevice }
      (by simp)).1 (by decide) rfl
  · exact (hserved _ _ rfl { pattern := "/docsis/metrics", device := rejectingDevice }
      (by simp)).2 (by decide) (by decide) rfl

/-! ## Status of a scrape (claim C9) -/

theorem gatherLoop_length (ds : List Desc) (ms : List Metric) :
    ∀ acc : List Metric × Nat, acc.1.length ≤ (gatherLoop ds ms acc).1.length := by
  induction ms with
  | nil => intro acc; simp [gatherLoop]
  | cons m rest ih =>
    intro acc
    obtain ⟨seen, errs⟩ := acc
    simp only [gatherLoop]
    split
    · have := ih (seen ++ [m], errs)
      simp only [List.length_append, List.length_singleton] at this
      omega
    · exact ih (seen, errs + 1)

theorem gatherLoop_accepts_first (ds : List Desc) (m : Metric) (rest : List Metric)
    (h : acceptable ds [] m = true) : (gatherLoop ds (m :: rest) ([], 0)).1 ≠ [] := by
  simp only [gatherLoop, h, if_true]
  intro hnil
  have := gatherLoop_length ds rest ([] ++ [m], 0)
  rw [hnil] at this
  simp at this

theorem HandlerFor_status (pkg : CollectorPkg) (reg : Registry) (dev : Device)
    (h : (reg.Gather pkg dev).1 ≠ []) :
    HandlerFor pkg reg handlerOpts dev =
      .responded { status := 200, registry := reg.id, body := (reg.Gather pkg dev).1 } := by
  unfold HandlerFor handlerOpts
  have hlen : (reg.Gather pkg dev).1.length ≠ 0 := by
    intro h0
    exact h (List.length_eq_zero.mp h0)
  simp only
  split
  · rfl
  · rfl

theorem specCollect_up (c : Collector) (dev : Device) :
    ∃ v rest, specCollect c dev = { name := "up", labels := [], value := v } :: rest := by
  unfold specCollect
  split
  · exact ⟨_, _, rfl⟩
  · exact ⟨_, _, rfl⟩

theorem specDocsisCollect_up (c : DocsisCollector) (dev : Device) :
    ∃ v rest, specDocsisCollect c dev = { name := "up", labels := [], value := v } :: rest := by
  unfold specDocsisCollect
  split
  · exact ⟨_, _, rfl⟩
  · exact ⟨_, _, rfl⟩

theorem spec_register_general (n : Nat) (c : Collector) :
    Registry.Register specPkg { id := n, collectors := [] } (.general c) =
      .inr { id := n, collectors := [.general c] } := by
  rfl

theorem spec_register_docsis (n : Nat) (c : DocsisCollector) :
    Registry.Register specPkg { id := n, collectors := [] } (.docsis c) =
      .inr { id := n, collectors := [.docsis c] } := by
  rfl

theorem spec_general_run (s : server) (h : Heap) (request : Request) :
    (s.handleMetricsRequest specPkg h request).1.result =
      .responded
        { status := 200, registry := h.registries,
          body := (Registry.Gather specPkg
            { id := h.registries, collectors := [.general { Station := some s.station }] }
            request.device).1 } := by
  have hne : (Registry.Gather specPkg
      { id := h.registries, collectors := [.general { Station := some s.station }] }
      request.device).1 ≠ [] := by
    obtain ⟨v, rest, hc⟩ := specCollect_up { Station := some s.station } request.device
    simp only [Registry.Gather, List.foldl, AnyCollector.collect, specPkg, hc]
    exact gatherLoop_accepts_first _ _ _ rfl
  simp only [server.handleMetricsRequest, NewRegistry, registerAndServe,
    Registry.MustRegister, spec_register_general]
  exact HandlerFor_status specPkg _ _ hne

theorem spec_docsis_run (s : server) (h : Heap) (request : Request) :
    (s.handleDocsisMetricsRequest specPkg h request).1.result =
      .responded
        { status := 200, registry := h.registries,
          body := (Registry.Gather specPkg
            { id := h.registries, collectors := [.docsis { Station := some s.station }] }
            request.device).1 } := by
  have hne : (Registry.Gather specPkg
      { id := h.registries, collectors := [.docsis { Station := some s.station }] }
      request.device).1 ≠ [] := by
    obtain ⟨v, rest, hc⟩ := specDocsisCollect_up { Station := some s.station } request.device
    simp only [Registry.Gather, List.foldl, AnyCollector.collect, specPkg, hc]
    exact gatherLoop_accepts_first _ _ _ rfl
  simp only [server.handleDocsisMetricsRequest, NewRegistry, registerAndServe,
    Registry.MustRegister, spec_register_docsis]
  exact HandlerFor_status specPkg _ _ hne

theorem panic_independent_of_request (pkg : CollectorPkg) (registry : Registry)
    (c : AnyCollector) (request request' : Request) (err : GoError)
    (h : (registerAndServe pkg registry c request).result = .panicked err) :
    (registerAndServe pkg registry c request').result = .panicked err := by
  unfold registerAndServe at h ⊢
  cases hreg : registry.MustRegister pkg c with
  | inl e => rw [hreg] at h; exact h
  | inr r' =>
    rw [hreg] at h
    obtain ⟨resp, hresp⟩ := HandlerFor_responds pkg r' request.device
    simp only [hresp] at h
    cases h

/-- Claim C9, for the collectors as the specification describes them: every
run of either metrics handler answers with status 200, whatever the device
answered during the scrape; when the read of the device failed, the body is
the one sample `up` with value 0.  So no device answer leads to a status
other than 200 or to a panic of the handler.  For collectors of any kind, a
panic of a handler run comes from `MustRegister` and is the same for every
request, so it does not depend on the device, and the server goes on to the
next request after it. -/
theorem device_faults_answer_200 (s : server) (h : Heap) (request : Request) :
    (∃ resp, (s.handleMetricsRequest specPkg h request).1.result = .responded resp ∧
      resp.status = 200 ∧ resp.body ≠ [] ∧
      (∀ e, request.device.general = .inl e →
        resp.body = [{ name := "up", labels := [], value := 0 }])) ∧
    (∃ resp, (s.handleDocsisMetricsRequest specPkg h request).1.result = .responded resp ∧
      resp.status = 200 ∧ resp.body ≠ [] ∧
      (∀ e, request.device.docsis = .inl e →
        resp.body = [{ name := "up", labels := [], value := 0 }])) ∧
    (∀ pkg err request',
      ((s.handleMetricsRequest pkg h request).1.result = .panicked err →
        (s.handleMetricsRequest pkg h request').1.result = .panicked err) ∧
      ((s.handleDocsisMetricsRequest pkg h request).1.result = .panicked err →
        (s.handleDocsisMetricsRequest pkg h request').1.result = .panicked err)) ∧
    (∀ pkg f mux reqs, (serveAll pkg f mux s h (request :: reqs)).1.length = reqs.length + 1) := by
  refine ⟨?_, ?_, ?_, ?_⟩
  · refine ⟨_, spec_general_run s h request, rfl, ?_, ?_⟩
    · obtain ⟨v, rest, hc⟩ := specCollect_up { Station := some s.station } request.device
      simp only [Registry.Gather, List.foldl, AnyCollector.collect, specPkg, hc]
      exact gatherLoop_accepts_first _ _ _ rfl
    · intro e he
      simp only [Registry.Gather, List.foldl, AnyCollector.collect, specPkg, specCollect, he]
      rfl
  · refine ⟨_, spec_docsis_run s h request, rfl, ?_, ?_⟩
    · obtain ⟨v, rest, hc⟩ := specDocsisCollect_up { Station := some s.station } request.device
      simp only [Registry.Gather, List.foldl, AnyCollector.collect, specPkg, hc]
      exact gatherLoop_accepts_first _ _ _ rfl
    · intro e he
      simp only [Registry.Gather, List.foldl, AnyCollector.collect, specPkg, specDocsisCollect,
        he]
      rfl
  · intro pkg err request'
    exact ⟨panic_independent_of_request pkg _ _ request request' err,
      panic_independent_of_request pkg _ _ request request' err⟩
  · intro pkg f mux reqs
    have hlen : ∀ (rs : List Request) (s : server) (h : Heap),
        (serveAll pkg f mux s h rs).1.length = rs.length := by
      intro rs
      induction rs with
      | nil => intro s h; rfl
      | cons r rest ih => intro s h; simp [serveAll, ih]
    exact hlen _ s h

/-- Claim C9 at the example: a scrape of the general path while the device
rejects the credentials is answered with status 200 and the sample up = 0. -/
theorem device_faults_answer_200_witness :
    ∃ resp,
      (server.handleMetricsRequest specPkg ⟨NewVodafoneStation "https://192.168.0.1" "x"⟩
        { registries := 0 } { pattern := "/metrics", device := rejectingDevice }).1.result =
          .responded resp ∧
      resp.status = 200 ∧ resp.body = [{ name := "up", labels := [], value := 0 }] :=
  let ⟨resp, h1, h2, _, h4⟩ :=
    (device_faults_answer_200 ⟨NewVodafoneStation "https://192.168.0.1" "x"⟩
      { registries := 0 } { pattern := "/metrics", device := rejectingDevice }).1
  ⟨resp, h1, h2, h4 .AuthError rfl⟩

/-! ## The listing against the DOCSIS path (claim C2) -/

/-- Claim C2 at the example, with the collectors as the specification
describes them: the listing mode writes the six descriptors of the general
collector and nothing else, while a scrape of the DOCSIS path answers with a
sample of the metric `frequency` with the labels `channel` and `direction`.
No listed descriptor has that name: `describeMetrics` asks the `Collector`
alone for descriptors and never the `DocsisCollector`, so for any package
the listing is the same whatever the `DocsisCollector` describes. -/
theorem listing_omits_docsis_metrics :
    listingFlags.showMetrics = true ∧
    stdoutOf (main exampleEnv listingFlags).trace =
      "Exported metrics\n" ++
      "  * `up`: whether the scrape of the device succeeded\n" ++
      "  * `uptime`: uptime in seconds\n" ++
      "  * `wan_link`: wan link as 0/1\n" ++
      "  * `client_count`: connected-client count\n" ++
      "  * `temperature`: device temperature in celsius\n" ++
      "  * `reboot_count`: reboot count\n" ∧
    (∀ d ∈ nonNil (exampleEnv.pkg.Describe { Station := none }), d.fqName ≠ "frequency") ∧
    (∃ resp,
      (server.handleDocsisMetricsRequest exampleEnv.pkg
        ⟨NewVodafoneStation "https://192.168.0.1" "s3cret pass"⟩ { registries := 0 }
        { pattern := "/docsis/metrics", device := exampleDevice }).1.result =
          .responded resp ∧
      resp.status = 200 ∧
      { name := "frequency", labels := [("channel", "1"), ("direction", "downstream")],
        value := 602000000 } ∈ resp.body) ∧
    (∀ env env' : Env, env.pkg.Describe = env'.pkg.Describe →
      describeMetrics env = describeMetrics env') := by
  refine ⟨rfl, rfl, by decide, ⟨_, rfl, by decide⟩, ?_⟩
  intro env env' h
  simp only [describeMetrics, h]

end VodafoneStationExporter
